import Mathlib

/-!
# wechat-talk: a verification development

A shallow embedding of `wechat_talk.go` (package `wechat_talk`): the five
message builders `SendText`, `SendMarkdown`, `SendImage`, `SendNews`,
`SendFile`, the transport `send` and the upload `UploadFile`, together with
the parts of the Go standard library they call (`encoding/json`,
`unicode/utf8`, `mime/multipart`, `fmt.Sprintf` with `%s`).

Conventions
* a Go `string` or `[]byte` is a list of bytes, each byte a natural number
  below 256;
* a Go slice that may be `nil` is an `Option (List _)`, `none` being `nil`;
* a Go `error` is identified by its message;
* a run-time panic is an explicit outcome, distinct from every return value;
* the network, the random multipart boundary and the readers are inputs.
-/

namespace WechatTalk

set_option maxRecDepth 100000
set_option exponentiation.threshold 2000

/-! ## Strings -/

/-- Go `string` and `[]byte`: a sequence of bytes (naturals below 256). -/
abbrev GoString := List Nat

/-- The bytes of an ASCII literal. -/
def ascii (s : String) : GoString := s.toList.map Char.toNat

/-- Go `utf8.AppendRune`: the UTF-8 encoding of a code point; surrogates and
values above U+10FFFF are written as U+FFFD. -/
def encodeRune (r : Nat) : GoString :=
  if r < 0x80 then [r]
  else if r < 0x800 then [0xC0 + r / 64, 0x80 + r % 64]
  else if (0xD800 ≤ r ∧ r ≤ 0xDFFF) ∨ 0x10FFFF < r then [0xEF, 0xBF, 0xBD]
  else if r < 0x10000 then [0xE0 + r / 4096, 0x80 + r / 64 % 64, 0x80 + r % 64]
  else [0xF0 + r / 262144, 0x80 + r / 4096 % 64, 0x80 + r / 64 % 64, 0x80 + r % 64]

/-- The bytes of a string literal of the (UTF-8) source file. -/
def utf8 (s : String) : GoString := s.toList.flatMap (fun c => encodeRune c.toNat)

/-- A UTF-8 continuation byte, `0x80..0xBF`. -/
def isCont (b : Nat) : Bool := decide (0x80 ≤ b) && decide (b ≤ 0xBF)

/-- Go `utf8.DecodeRune` on the head of a byte sequence: `some (rune, size)`
for a well-formed encoding (shortest form, no surrogate, at most U+10FFFF),
`none` where Go answers `(RuneError, 1)` or, on empty input, `(RuneError, 0)`. -/
def decodeRune : GoString → Option (Nat × Nat)
  | [] => none
  | b0 :: rest =>
    if b0 < 0x80 then some (b0, 1)
    else if 0xC2 ≤ b0 ∧ b0 ≤ 0xDF then
      match rest with
      | b1 :: _ => if isCont b1 then some ((b0 - 0xC0) * 64 + (b1 - 0x80), 2) else none
      | _ => none
    else if 0xE0 ≤ b0 ∧ b0 ≤ 0xEF then
      match rest with
      | b1 :: b2 :: _ =>
        if isCont b1 && isCont b2 && (decide (b0 ≠ 0xE0) || decide (0xA0 ≤ b1))
            && (decide (b0 ≠ 0xED) || decide (b1 ≤ 0x9F)) then
          some ((b0 - 0xE0) * 4096 + (b1 - 0x80) * 64 + (b2 - 0x80), 3)
        else none
      | _ => none
    else if 0xF0 ≤ b0 ∧ b0 ≤ 0xF4 then
      match rest with
      | b1 :: b2 :: b3 :: _ =>
        if isCont b1 && isCont b2 && isCont b3 && (decide (b0 ≠ 0xF0) || decide (0x90 ≤ b1))
            && (decide (b0 ≠ 0xF4) || decide (b1 ≤ 0x8F)) then
          some ((b0 - 0xF0) * 262144 + (b1 - 0x80) * 4096 + (b2 - 0x80) * 64 + (b3 - 0x80), 4)
        else none
      | _ => none
    else none

/-- Go `utf8.Valid`, with `fuel` bounding the number of runes: the bytes are a
concatenation of well-formed encodings. -/
def validUTF8Aux : Nat → GoString → Bool
  | _, [] => true
  | 0, _ :: _ => false
  | fuel + 1, b :: bs =>
    match decodeRune (b :: bs) with
    | some (_, size) => validUTF8Aux fuel ((b :: bs).drop size)
    | none => false

/-- Go `utf8.Valid`. -/
def validUTF8 (s : GoString) : Bool := validUTF8Aux s.length s

/-! ## Generic JSON values -/

/-- A JSON document. As the result of decoding into `interface{}` it stands
for `nil`, `bool`, `float64`, `string`, `[]interface{}` and
`map[string]interface{}`. A number keeps the exact decimal value
`± mant * 10 ^ exp` of its literal; the `float64` Go stores is the double
nearest to it. -/
inductive Json where
  | null
  | bool (b : Bool)
  | num (neg : Bool) (mant : Nat) (exp : Int)
  | str (s : GoString)
  | arr (xs : List Json)
  | obj (kvs : List (GoString × Json))

/-- The lower-case hexadecimal digit of a value below 16 (`hex` of encode.go). -/
def hexDigit (n : Nat) : Nat := if n < 10 then 0x30 + n else 0x61 + (n - 10)

/-- Body of the loop of `appendString` (encode.go, `escapeHTML = true`): the
characters written between the quotes of a JSON string. Backspace and form
feed are written `\b` and `\f` as by Go 1.22; older releases write `\u0008`
and `\u000c`, which a decoder reads as the same bytes. -/
def escapeAux : Nat → GoString → GoString
  | _, [] => []
  | 0, _ :: _ => []
  | fuel + 1, b :: bs =>
    if b < 0x80 then
      if b = 0x22 ∨ b = 0x5C then 0x5C :: b :: escapeAux fuel bs
      else if b = 0x08 then 0x5C :: 0x62 :: escapeAux fuel bs
      else if b = 0x0C then 0x5C :: 0x66 :: escapeAux fuel bs
      else if b = 0x0A then 0x5C :: 0x6E :: escapeAux fuel bs
      else if b = 0x0D then 0x5C :: 0x72 :: escapeAux fuel bs
      else if b = 0x09 then 0x5C :: 0x74 :: escapeAux fuel bs
      else if b < 0x20 ∨ b = 0x3C ∨ b = 0x3E ∨ b = 0x26 then
        0x5C :: 0x75 :: 0x30 :: 0x30 :: hexDigit (b / 16) :: hexDigit (b % 16) :: escapeAux fuel bs
      else b :: escapeAux fuel bs
    else
      match decodeRune (b :: bs) with
      | none => ascii "\\ufffd" ++ escapeAux fuel bs
      | some (c, size) =>
        if c = 0x2028 ∨ c = 0x2029 then
          ascii "\\u202" ++ hexDigit (c % 16) :: escapeAux fuel ((b :: bs).drop size)
        else (b :: bs).take size ++ escapeAux fuel ((b :: bs).drop size)

/-- Go `appendString`: a quoted JSON string, coerced to valid UTF-8. -/
def encodeString (s : GoString) : GoString := 0x22 :: escapeAux s.length s ++ [0x22]

mutual
/-- The compact text `json.Marshal` writes for a value whose object members
are already in output order. `fmtFloat` stands for `strconv.AppendFloat`,
which is not modelled. -/
def render (fmtFloat : Bool → Nat → Int → GoString) : Json → GoString
  | .null => ascii "null"
  | .bool true => ascii "true"
  | .bool false => ascii "false"
  | .num neg mant exp => fmtFloat neg mant exp
  | .str s => encodeString s
  | .arr xs => 0x5B :: renderElems fmtFloat xs ++ [0x5D]
  | .obj kvs => 0x7B :: renderMembers fmtFloat kvs ++ [0x7D]
/-- Array elements, separated by commas. -/
def renderElems (fmtFloat : Bool → Nat → Int → GoString) : List Json → GoString
  | [] => []
  | [x] => render fmtFloat x
  | x :: y :: xs => render fmtFloat x ++ 0x2C :: renderElems fmtFloat (y :: xs)
/-- Object members `"key":value`, separated by commas. -/
def renderMembers (fmtFloat : Bool → Nat → Int → GoString) : List (GoString × Json) → GoString
  | [] => []
  | [(k, v)] => encodeString k ++ 0x3A :: render fmtFloat v
  | (k, v) :: y :: xs =>
    encodeString k ++ 0x3A :: render fmtFloat v ++ 0x2C :: renderMembers fmtFloat (y :: xs)
end

/-! ## Decoding (`json.Unmarshal`) -/

/-- The `isSpace` of scanner.go: space, tab, carriage return, line feed. -/
def isSpace (c : Nat) : Bool := c = 0x20 ∨ c = 0x09 ∨ c = 0x0D ∨ c = 0x0A

/-- Skip JSON white space. -/
def skipSpace : GoString → GoString
  | [] => []
  | c :: cs => if isSpace c then skipSpace cs else c :: cs

/-- The value of a hexadecimal digit, either case. -/
def hexVal (c : Nat) : Option Nat :=
  if 0x30 ≤ c ∧ c ≤ 0x39 then some (c - 0x30)
  else if 0x61 ≤ c ∧ c ≤ 0x66 then some (c - 0x61 + 10)
  else if 0x41 ≤ c ∧ c ≤ 0x46 then some (c - 0x41 + 10)
  else none

/-- The four hexadecimal digits that follow a `\u` (`getu4` of decode.go). -/
def getu4 : GoString → Option (Nat × GoString)
  | a :: b :: c :: d :: rest =>
    match hexVal a, hexVal b, hexVal c, hexVal d with
    | some a, some b, some c, some d => some (a * 4096 + b * 256 + c * 16 + d, rest)
    | _, _, _, _ => none
  | _ => none

/-- The byte a one-letter escape stands for. -/
def simpleEscape (e : Nat) : Option Nat :=
  if e = 0x22 ∨ e = 0x5C ∨ e = 0x2F then some e
  else if e = 0x62 then some 0x08
  else if e = 0x66 then some 0x0C
  else if e = 0x6E then some 0x0A
  else if e = 0x72 then some 0x0D
  else if e = 0x74 then some 0x09
  else none

/-- Put decoded bytes in front of the rest of a string. -/
def consOut (out : GoString) (r : Option (GoString × GoString)) : Option (GoString × GoString) :=
  r.map (fun p => (out ++ p.1, p.2))

/-- A string literal after its opening quote (scanner states `stateInString`,
`stateInStringEsc*` and `unquote` of decode.go): the decoded bytes and the
input after the closing quote. Invalid UTF-8 and unpaired surrogate escapes
decode to U+FFFD; a control character or a bad escape is a syntax error. -/
def parseStringBody : Nat → GoString → Option (GoString × GoString)
  | 0, _ => none
  | fuel + 1, input =>
    match input with
    | [] => none
    | c :: rest =>
      if c = 0x22 then some ([], rest)
      else if c = 0x5C then
        match rest with
        | [] => none
        | e :: rest1 =>
          if e = 0x75 then
            match getu4 rest1 with
            | none => none
            | some (rr, rest2) =>
              if 0xD800 ≤ rr ∧ rr ≤ 0xDFFF then
                match rest2 with
                | 0x5C :: 0x75 :: rest3 =>
                  match getu4 rest3 with
                  | some (rr1, rest4) =>
                    if rr ≤ 0xDBFF ∧ 0xDC00 ≤ rr1 ∧ rr1 ≤ 0xDFFF then
                      consOut (encodeRune (0x10000 + (rr - 0xD800) * 1024 + (rr1 - 0xDC00)))
                        (parseStringBody fuel rest4)
                    else consOut (encodeRune 0xFFFD) (parseStringBody fuel rest2)
                  | none => consOut (encodeRune 0xFFFD) (parseStringBody fuel rest2)
                | _ => consOut (encodeRune 0xFFFD) (parseStringBody fuel rest2)
              else consOut (encodeRune rr) (parseStringBody fuel rest2)
          else
            match simpleEscape e with
            | some b => consOut [b] (parseStringBody fuel rest1)
            | none => none
      else if c < 0x20 then none
      else if c < 0x80 then consOut [c] (parseStringBody fuel rest)
      else
        match decodeRune (c :: rest) with
        | none => consOut (encodeRune 0xFFFD) (parseStringBody fuel rest)
        | some (r, size) => consOut (encodeRune r) (parseStringBody fuel ((c :: rest).drop size))

/-- Is the byte an ASCII decimal digit. -/
def isDigit (c : Nat) : Bool := decide (0x30 ≤ c) && decide (c ≤ 0x39)

/-- The longest run of decimal digits at the head of the input, read as a
number, with the count of digits and the rest. -/
def takeDigits : Nat → Nat → GoString → Nat × Nat × GoString
  | acc, n, [] => (acc, n, [])
  | acc, n, c :: cs =>
    if isDigit c then takeDigits (acc * 10 + (c - 0x30)) (n + 1) cs else (acc, n, c :: cs)

/-- The exponent part of a number literal, if any: its value and the rest. -/
def parseExp (input : GoString) : Option (Int × GoString) :=
  match input with
  | c :: rest =>
    if c = 0x65 ∨ c = 0x45 then
      match rest with
      | s :: rest1 =>
        if s = 0x2B ∨ s = 0x2D then
          match takeDigits 0 0 rest1 with
          | (_, 0, _) => none
          | (v, _, rest2) => some (if s = 0x2D then - (v : Int) else (v : Int), rest2)
        else
          match takeDigits 0 0 (s :: rest1) with
          | (_, 0, _) => none
          | (v, _, rest2) => some ((v : Int), rest2)
      | [] => none
    else some (0, input)
  | [] => some (0, input)

/-- The fraction and exponent after the integer part `mant` of a number. -/
def parseFracExp (neg : Bool) (mant : Nat) (input : GoString) : Option (Json × GoString) :=
  match input with
  | 0x2E :: rest =>
    match takeDigits mant 0 rest with
    | (_, 0, _) => none
    | (m, n, rest1) => (parseExp rest1).map (fun p => (Json.num neg m (p.1 - (n : Int)), p.2))
  | _ => (parseExp input).map (fun p => (Json.num neg mant p.1, p.2))

/-- A number literal (scanner states `stateNeg`, `state0`, `state1`, `stateDot`,
`stateE`): `-? (0 | [1-9][0-9]*) (. [0-9]+)? ([eE] [+-]? [0-9]+)?`. -/
def parseNumber (input : GoString) : Option (Json × GoString) :=
  let neg := input.head? = some 0x2D
  let body := if neg then input.tail else input
  match body with
  | [] => none
  | c :: rest =>
    if c = 0x30 then parseFracExp neg 0 rest
    else if isDigit c then
      match takeDigits 0 0 (c :: rest) with
      | (m, _, rest1) => parseFracExp neg m rest1
    else none

/-- The nesting limit of scanner.go. -/
def maxNestingDepth : Nat := 10000

mutual
/-- One JSON value, with leading white space: the syntax tree and the rest of
the input, or `none` on a syntax error. `depth` is the number of enclosing
arrays and objects. -/
def parseValue : Nat → Nat → GoString → Option (Json × GoString)
  | 0, _, _ => none
  | fuel + 1, depth, input =>
    match skipSpace input with
    | [] => none
    | c :: rest =>
      if c = 0x22 then
        (parseStringBody (rest.length + 1) rest).map (fun p => (Json.str p.1, p.2))
      else if c = 0x5B then
        if maxNestingDepth ≤ depth then none
        else
          match skipSpace rest with
          | 0x5D :: rest1 => some (Json.arr [], rest1)
          | _ => (parseElems fuel (depth + 1) rest).map (fun p => (Json.arr p.1, p.2))
      else if c = 0x7B then
        if maxNestingDepth ≤ depth then none
        else
          match skipSpace rest with
          | 0x7D :: rest1 => some (Json.obj [], rest1)
          | _ => (parseMembers fuel (depth + 1) rest).map (fun p => (Json.obj p.1, p.2))
      else if c = 0x74 then
        match rest with
        | 0x72 :: 0x75 :: 0x65 :: rest1 => some (Json.bool true, rest1)
        | _ => none
      else if c = 0x66 then
        match rest with
        | 0x61 :: 0x6C :: 0x73 :: 0x65 :: rest1 => some (Json.bool false, rest1)
        | _ => none
      else if c = 0x6E then
        match rest with
        | 0x75 :: 0x6C :: 0x6C :: rest1 => some (Json.null, rest1)
        | _ => none
      else parseNumber (c :: rest)
/-- The elements of a non-empty array up to and including the closing `]`. -/
def parseElems : Nat → Nat → GoString → Option (List Json × GoString)
  | 0, _, _ => none
  | fuel + 1, depth, input =>
    match parseValue fuel depth input with
    | none => none
    | some (v, rest) =>
      match skipSpace rest with
      | 0x2C :: rest1 => (parseElems fuel depth rest1).map (fun p => (v :: p.1, p.2))
      | 0x5D :: rest1 => some ([v], rest1)
      | _ => none
/-- The members of a non-empty object up to and including the closing `}`. -/
def parseMembers : Nat → Nat → GoString → Option (List (GoString × Json) × GoString)
  | 0, _, _ => none
  | fuel + 1, depth, input =>
    match skipSpace input with
    | 0x22 :: rest =>
      match parseStringBody (rest.length + 1) rest with
      | none => none
      | some (k, rest1) =>
        match skipSpace rest1 with
        | 0x3A :: rest2 =>
          match parseValue fuel depth rest2 with
          | none => none
          | some (v, rest3) =>
            match skipSpace rest3 with
            | 0x2C :: rest4 => (parseMembers fuel depth rest4).map (fun p => ((k, v) :: p.1, p.2))
            | 0x7D :: rest4 => some ([(k, v)], rest4)
            | _ => none
        | _ => none
    | _ => none
end

/-- The syntax tree of a complete JSON text (`checkValid` of scanner.go):
one value, white space around it, nothing else. -/
def parseJson (data : GoString) : Option Json :=
  match parseValue (2 * data.length + 2) 0 data with
  | some (v, rest) => if skipSpace rest = [] then some v else none
  | none => none

/-- Does `strconv.ParseFloat(_, 64)` report a range error for the decimal
`mant * 10 ^ exp`: the value is at least `2^1024 - 2^970`, half an ulp above
the largest double, so that it rounds to infinity. -/
def f64Overflow (mant : Nat) (exp : Int) : Bool :=
  if 0 ≤ exp then decide (2 ^ 1024 - 2 ^ 970 ≤ mant * 10 ^ exp.toNat)
  else decide ((2 ^ 1024 - 2 ^ 970) * 10 ^ (-exp).toNat ≤ mant)

/-- Is the double nearest to `mant * 10 ^ exp` a zero: the value is at most
`2^-1075`, half the least subnormal (a tie rounds to the even neighbour, 0). -/
def f64IsZero (mant : Nat) (exp : Int) : Bool :=
  decide (mant = 0) || (decide (exp < 0) && decide (mant * 2 ^ 1075 ≤ 10 ^ (-exp).toNat))

/-- Byte-wise lexicographic order of Go strings (`<` on `string`). -/
def strLt : GoString → GoString → Bool
  | [], [] => false
  | [], _ :: _ => true
  | _ :: _, [] => false
  | a :: as, b :: bs => decide (a < b) || (decide (a = b) && strLt as bs)

/-- Look a key up in a Go map. -/
def mapLookup (k : GoString) : List (GoString × Json) → Option Json
  | [] => none
  | (k', v) :: m => if k' = k then some v else mapLookup k m

/-- Add a binding for a key the map lacks, keeping the keys in increasing order
(the order in which `json.Marshal` writes a map). -/
def mapInsertNew (k : GoString) (v : Json) : List (GoString × Json) → List (GoString × Json)
  | [] => [(k, v)]
  | (k', v') :: m => if strLt k k' then (k, v) :: (k', v') :: m else (k', v') :: mapInsertNew k v m

mutual
/-- The Go value `json.Unmarshal` builds for a syntax tree decoded into
`interface{}`: a number outside the range of `float64` leaves `nil`, and an
object becomes a map, in which the last of several equal keys wins; the map is
kept as the list of its bindings in increasing key order. -/
def toGo : Json → Json
  | .null => .null
  | .bool b => .bool b
  | .num neg mant exp => if f64Overflow mant exp then .null else .num neg mant exp
  | .str s => .str s
  | .arr xs => .arr (toGoElems xs)
  | .obj kvs => .obj (toGoMembers kvs)
/-- The elements of a decoded array. -/
def toGoElems : List Json → List Json
  | [] => []
  | x :: xs => toGo x :: toGoElems xs
/-- The map built from the members of an object, read from left to right. -/
def toGoMembers : List (GoString × Json) → List (GoString × Json)
  | [] => []
  | (k, v) :: kvs =>
    match mapLookup k (toGoMembers kvs) with
    | some _ => toGoMembers kvs
    | none => mapInsertNew k (toGo v) (toGoMembers kvs)
end

mutual
/-- Does decoding save an `UnmarshalTypeError` for a number out of range. -/
def hasRangeError : Json → Bool
  | .num _ mant exp => f64Overflow mant exp
  | .arr xs => hasRangeErrorElems xs
  | .obj kvs => hasRangeErrorMembers kvs
  | _ => false
/-- Range errors among array elements. -/
def hasRangeErrorElems : List Json → Bool
  | [] => false
  | x :: xs => hasRangeError x || hasRangeErrorElems xs
/-- Range errors among object members. -/
def hasRangeErrorMembers : List (GoString × Json) → Bool
  | [] => false
  | (_, v) :: kvs => hasRangeError v || hasRangeErrorMembers kvs
end

/-- The errors of `json.Unmarshal`. -/
inductive UnmarshalError where
  | syntaxError
  | typeError
  deriving DecidableEq

/-- The state after `json.Unmarshal(data, &m)` for a freshly made
`m : map[string]interface{}`: the error returned and the map. -/
structure Unmarshaled where
  err : Option UnmarshalError
  item : List (GoString × Json)

/-- Go `json.Unmarshal(data, &m)` with `m := make(map[string]interface{})`.
Invalid JSON: a syntax error, `m` untouched. `null`: no error, `m` set to the
nil map. Another value that is not an object: a type error, `m` untouched.
An object: its members are stored; a number out of range is reported as a
type error after the rest has been stored. -/
def jsonUnmarshalMap (data : GoString) : Unmarshaled :=
  match parseJson data with
  | none => { err := some .syntaxError, item := [] }
  | some (.obj kvs) =>
    { err := if hasRangeErrorMembers kvs then some .typeError else none, item := toGoMembers kvs }
  | some .null => { err := none, item := [] }
  | some _ => { err := some .typeError, item := [] }

/-- Go `m[k]` on a `map[string]interface{}`: `nil` for an absent key. -/
def mapIndex (m : List (GoString × Json)) (k : GoString) : Json :=
  (mapLookup k m).getD .null

/-- Go `v == float64(0)` for an interface value `v`: the dynamic type is
`float64` and the value is a zero (of either sign). -/
def eqFloat64Zero : Json → Bool
  | .num _ mant exp => f64IsZero mant exp
  | _ => false

/-! ## Outcomes -/

/-- A Go `error` value, identified by its message. -/
structure GoError where
  msg : GoString
  deriving DecidableEq

/-- Go `errors.New`. -/
def errorsNew (msg : GoString) : GoError := { msg := msg }

/-- How a call ends: it returns, or it panics and returns nothing. -/
inductive Outcome (α : Type) where
  | ret (a : α)
  | panic (what : String)
  deriving DecidableEq

/-- Go `v.(string)`: the string held by the interface value; `none` where the
assertion panics (the value is `nil` or of another dynamic type). -/
def assertString : Json → Option GoString
  | .str s => some s
  | _ => none

/-! ## The data model of `wechat_talk.go` -/

/-- The constant `webhook`. -/
def webhook : GoString := ascii "https://qyapi.weixin.qq.com/cgi-bin/webhook/send?key="

/-- The constant `msgTypeText`. -/
def msgTypeText : GoString := ascii "text"
/-- The constant `msgTypeMarkdown`. -/
def msgTypeMarkdown : GoString := ascii "markdown"
/-- The constant `msgTypeNews`. -/
def msgTypeNews : GoString := ascii "news"
/-- The constant `msgTypeImage`. -/
def msgTypeImage : GoString := ascii "image"
/-- The constant `msgTypeFile`. -/
def msgTypeFile : GoString := ascii "file"

/-- The struct `Robot`. -/
structure Robot where
  Key : GoString
  deriving DecidableEq

/-- The constructor `NewRobot`. -/
def NewRobot (key : GoString) : Robot := { Key := key }

/-- The struct `text`. -/
structure text where
  Content : GoString
  MentionedList : Option (List GoString)
  MentionedMobileList : Option (List GoString)
  deriving DecidableEq

/-- The struct `textMessage`. -/
structure textMessage where
  MsgType : GoString
  Text : text
  deriving DecidableEq

/-- The struct `markdown`. -/
structure markdown where
  Content : GoString
  deriving DecidableEq

/-- The struct `markdownMessage`. -/
structure markdownMessage where
  MsgType : GoString
  Markdown : markdown
  deriving DecidableEq

/-- The struct `image`. -/
structure image where
  Base64 : GoString
  Md5 : GoString
  deriving DecidableEq

/-- The struct `imageMessage`. -/
structure imageMessage where
  MsgType : GoString
  Image : image
  deriving DecidableEq

/-- The struct `Articles`. -/
structure Articles where
  Title : GoString
  Description : GoString
  Url : GoString
  PicUrl : GoString
  deriving DecidableEq

/-- The struct `news`. -/
structure news where
  Articles : Option (List Articles)
  deriving DecidableEq

/-- The struct `newsMessage`. -/
structure newsMessage where
  MsgType : GoString
  News : news
  deriving DecidableEq

/-- The struct `file`. -/
structure file where
  MediaId : GoString
  deriving DecidableEq

/-- The struct `fileMessage`. -/
structure fileMessage where
  MsgType : GoString
  File : file
  deriving DecidableEq

/-- The values `send` is called with: a pointer to one of the five message
structs. -/
inductive Message where
  | text (m : textMessage)
  | markdown (m : markdownMessage)
  | image (m : imageMessage)
  | news (m : newsMessage)
  | file (m : fileMessage)
  deriving DecidableEq

/-! ## `json.Marshal` of the message structs

The encoder walks the exported fields in declaration order and names each by
its `json:"..."` tag; a `nil` slice is written as `null`. -/

/-- A `[]string`. -/
def stringsToJson : Option (List GoString) → Json
  | none => .null
  | some xs => .arr (xs.map Json.str)

/-- The struct `text` with its tags. -/
def text.toJson (t : text) : Json :=
  .obj [(ascii "content", .str t.Content),
        (ascii "mentioned_list", stringsToJson t.MentionedList),
        (ascii "mentioned_mobile_list", stringsToJson t.MentionedMobileList)]

/-- The struct `markdown` with its tags. -/
def markdown.toJson (m : markdown) : Json := .obj [(ascii "content", .str m.Content)]

/-- The struct `image` with its tags. -/
def image.toJson (i : image) : Json :=
  .obj [(ascii "base64", .str i.Base64), (ascii "md5", .str i.Md5)]

/-- The struct `Articles` with its tags. -/
def Articles.toJson (a : Articles) : Json :=
  .obj [(ascii "title", .str a.Title), (ascii "description", .str a.Description),
        (ascii "url", .str a.Url), (ascii "picurl", .str a.PicUrl)]

/-- A `[]Articles`. -/
def articlesToJson : Option (List Articles) → Json
  | none => .null
  | some as => .arr (as.map Articles.toJson)

/-- The struct `news` with its tags. -/
def news.toJson (n : news) : Json := .obj [(ascii "articles", articlesToJson n.Articles)]

/-- The struct `file` with its tags. -/
def file.toJson (f : file) : Json := .obj [(ascii "media_id", .str f.MediaId)]

/-- The JSON document of a message: `msgtype`, then the kind's object. -/
def Message.toJson : Message → Json
  | .text m => .obj [(ascii "msgtype", .str m.MsgType), (ascii "text", m.Text.toJson)]
  | .markdown m => .obj [(ascii "msgtype", .str m.MsgType), (ascii "markdown", m.Markdown.toJson)]
  | .image m => .obj [(ascii "msgtype", .str m.MsgType), (ascii "image", m.Image.toJson)]
  | .news m => .obj [(ascii "msgtype", .str m.MsgType), (ascii "news", m.News.toJson)]
  | .file m => .obj [(ascii "msgtype", .str m.MsgType), (ascii "file", m.File.toJson)]

/-- No number occurs in a message, so the float formatter is never called. -/
def noFloat : Bool → Nat → Int → GoString := fun _ _ _ => []

/-- Go `json.Marshal(msg)` for the five message structs: they hold only
strings, slices and structs, for which the encoder has no error. -/
def jsonMarshal (msg : Message) : Except GoError GoString :=
  .ok (render noFloat msg.toJson)

/-! ## The network and the readers -/

/-- An HTTP request as handed to the client. -/
structure Request where
  method : GoString
  url : GoString
  contentType : GoString
  body : GoString
  deriving DecidableEq

/-- An `io.Reader`, read to its end: the bytes it delivers, then end of file
(`err = none`) or a read error. -/
structure Reader where
  data : GoString
  err : Option GoError
  deriving DecidableEq

/-- What the code takes from outside: the answers of the two HTTP clients, the
check of `http.NewRequest` and the boundary drawn by `multipart.NewWriter`. -/
structure World where
  restyPost : Request → Except GoError GoString
  boundary : GoString
  newRequest : GoString → GoString → Option GoError
  clientDo : Request → Except GoError Reader

/-! ## `send` -/

/-- The request `send` posts for a serialized message. -/
def sendRequest (r : Robot) (body : GoString) : Request :=
  { method := ascii "POST"
    url := webhook ++ r.Key
    contentType := ascii "application/json;charset=utf-8"
    body := body }

/-- The end of `send`, after the response body has arrived: the error of
`json.Unmarshal` is dropped, `errcode` is compared with `float64(0)` and
`errmsg` is asserted to be a string. -/
def sendDecode (resBody : GoString) : Outcome (Option GoError) :=
  let item := (jsonUnmarshalMap resBody).item
  if eqFloat64Zero (mapIndex item (ascii "errcode")) then .ret none
  else
    match assertString (mapIndex item (ascii "errmsg")) with
    | some s => .ret (some (errorsNew s))
    | none => .panic "interface conversion: interface {} is not string"

/-- The method `Robot.send`. -/
def send (w : World) (r : Robot) (msg : Message) : Outcome (Option GoError) :=
  match jsonMarshal msg with
  | .error _ => .ret (some (errorsNew (utf8 "json 格式化错误")))
  | .ok body =>
    match w.restyPost (sendRequest r body) with
    | .error err => .ret (some err)
    | .ok resBody => sendDecode resBody

/-! ## The builders -/

/-- The value `&textMessage{...}` that `SendText` passes to `send`. -/
def textEnvelope (content : GoString) (mentionedList mentionedMobileList : Option (List GoString)) :
    Message :=
  .text
    { MsgType := msgTypeText
      Text :=
        { Content := content
          MentionedList := mentionedList
          MentionedMobileList := mentionedMobileList } }

/-- The method `Robot.SendText`. -/
def SendText (w : World) (r : Robot) (content : GoString)
    (mentionedList mentionedMobileList : Option (List GoString)) : Outcome (Option GoError) :=
  send w r (textEnvelope content mentionedList mentionedMobileList)

/-- The value `&markdownMessage{...}` that `SendMarkdown` passes to `send`. -/
def markdownEnvelope (content : GoString) : Message :=
  .markdown { MsgType := msgTypeMarkdown, Markdown := { Content := content } }

/-- The method `Robot.SendMarkdown`. -/
def SendMarkdown (w : World) (r : Robot) (content : GoString) : Outcome (Option GoError) :=
  send w r (markdownEnvelope content)

/-- The value `&imageMessage{...}` that `SendImage` passes to `send`. -/
def imageEnvelope (base64 md5 : GoString) : Message :=
  .image { MsgType := msgTypeImage, Image := { Base64 := base64, Md5 := md5 } }

/-- The method `Robot.SendImage`. -/
def SendImage (w : World) (r : Robot) (base64 md5 : GoString) : Outcome (Option GoError) :=
  send w r (imageEnvelope base64 md5)

/-- The value `&newsMessage{...}` that `SendNews` passes to `send`. -/
def newsEnvelope (articles : Option (List Articles)) : Message :=
  .news { MsgType := msgTypeNews, News := { Articles := articles } }

/-- The method `Robot.SendNews`. -/
def SendNews (w : World) (r : Robot) (articles : Option (List Articles)) :
    Outcome (Option GoError) :=
  send w r (newsEnvelope articles)

/-- The value `&fileMessage{...}` that `SendFile` passes to `send`. -/
def fileEnvelope (mediaId : GoString) : Message :=
  .file { MsgType := msgTypeFile, File := { MediaId := mediaId } }

/-- The method `Robot.SendFile`. -/
def SendFile (w : World) (r : Robot) (mediaId : GoString) : Outcome (Option GoError) :=
  send w r (fileEnvelope mediaId)

/-! ## `mime/multipart.Writer` over a `bytes.Buffer` -/

/-- The `escapeQuotes` of writer.go, the replacer
`("\\", "\\\\", "\"", "\\\"", "\n", "%0A", "\r", "%0D")`: a backslash before
each backslash and each double quote, and `%0D`, `%0A` for a carriage return
and a line feed. -/
def escapeQuotes : GoString → GoString
  | [] => []
  | c :: cs =>
    if c = 0x5C ∨ c = 0x22 then 0x5C :: c :: escapeQuotes cs
    else if c = 0x0D then ascii "%0D" ++ escapeQuotes cs
    else if c = 0x0A then ascii "%0A" ++ escapeQuotes cs
    else c :: escapeQuotes cs

/-- A `multipart.Writer`: the buffer it writes to, its boundary, and whether a
part has been opened (`lastpart != nil`). -/
structure Writer where
  buf : GoString
  boundary : GoString
  lastpart : Bool
  deriving DecidableEq

/-- Go `multipart.NewWriter(body)` on an empty buffer. -/
def NewWriter (boundary : GoString) : Writer := { buf := [], boundary := boundary, lastpart := false }

/-- One header line `key: value\r\n`. -/
def headerLine (kv : GoString × GoString) : GoString := kv.1 ++ ascii ": " ++ kv.2 ++ ascii "\r\n"

/-- Go `Writer.CreatePart`, the header keys given in sorted order: the
delimiter line, the header lines and an empty line. -/
def Writer.CreatePart (w : Writer) (header : List (GoString × GoString)) : Writer :=
  { w with
    buf := w.buf
      ++ (if w.lastpart then ascii "\r\n--" ++ w.boundary ++ ascii "\r\n"
          else ascii "--" ++ w.boundary ++ ascii "\r\n")
      ++ (header.map headerLine).flatten ++ ascii "\r\n"
    lastpart := true }

/-- Go `Writer.CreateFormFile`. -/
def Writer.CreateFormFile (w : Writer) (fieldname filename : GoString) : Writer :=
  w.CreatePart
    [(ascii "Content-Disposition",
        ascii "form-data; name=\"" ++ escapeQuotes fieldname ++ ascii "\"; filename=\""
          ++ escapeQuotes filename ++ ascii "\""),
     (ascii "Content-Type", ascii "application/octet-stream")]

/-- Writing to the open part: the bytes go to the buffer as they are. -/
def Writer.Write (w : Writer) (data : GoString) : Writer := { w with buf := w.buf ++ data }

/-- Go `Writer.Close`: the closing delimiter. -/
def Writer.Close (w : Writer) : Writer :=
  { w with buf := w.buf ++ ascii "\r\n--" ++ w.boundary ++ ascii "--\r\n", lastpart := false }

/-- Go `Writer.FormDataContentType`; the boundary is quoted if it holds one of
the characters `()<>@,;:\"/[]?= `. -/
def Writer.FormDataContentType (w : Writer) : GoString :=
  if w.boundary.any (fun c => (ascii "()<>@,;:\\\"/[]?= ").contains c) then
    ascii "multipart/form-data; boundary=\"" ++ w.boundary ++ ascii "\""
  else ascii "multipart/form-data; boundary=" ++ w.boundary

/-! ## `UploadFile` -/

/-- The URL `UploadFile` posts to. -/
def uploadUrl (r : Robot) : GoString :=
  ascii "https://qyapi.weixin.qq.com/cgi-bin/webhook/upload_media?key=" ++ r.Key
    ++ ascii "&type=file"

/-- The writer of `UploadFile` after `CreateFormFile`, `io.Copy` of the bytes
read from the file and `Close`. -/
def uploadWriter (boundary filename data : GoString) : Writer :=
  (((NewWriter boundary).CreateFormFile (ascii "media") filename).Write data).Close

/-- The request `UploadFile` hands to `HttpClient.Do`. -/
def uploadRequest (boundary : GoString) (r : Robot) (filename data : GoString) : Request :=
  { method := ascii "POST"
    url := uploadUrl r
    contentType := (uploadWriter boundary filename data).FormDataContentType
    body := (uploadWriter boundary filename data).buf }

/-- The end of `UploadFile`, after the response body has been read. -/
def uploadDecode (content : GoString) : Outcome (GoString × Option GoError) :=
  let u := jsonUnmarshalMap content
  match u.err with
  | some _ => .ret ([], some (errorsNew (utf8 "json 解析数据失败")))
  | none =>
    if !eqFloat64Zero (mapIndex u.item (ascii "errcode")) then
      match assertString (mapIndex u.item (ascii "errmsg")) with
      | some s => .ret ([], some (errorsNew s))
      | none => .panic "interface conversion: interface {} is not string"
    else
      match assertString (mapIndex u.item (ascii "media_id")) with
      | some s => .ret (s, none)
      | none => .panic "interface conversion: interface {} is not string"

/-- The method `Robot.UploadFile`. Writing to the buffer cannot fail, so
`CreateFormFile` and `Close` return no error. -/
def UploadFile (w : World) (r : Robot) (filename : GoString) (fileContent : Reader) :
    Outcome (GoString × Option GoError) :=
  match fileContent.err with
  | some err => .ret ([], some err)
  | none =>
    match w.newRequest (ascii "POST") (uploadUrl r) with
    | some err => .ret ([], some err)
    | none =>
      match w.clientDo (uploadRequest w.boundary r filename fileContent.data) with
      | .error err => .ret ([], some err)
      | .ok resp =>
        match resp.err with
        | some err => .ret ([], some err)
        | none => uploadDecode resp.data

/-! ## Reading a document back -/

/-- What a Go string becomes when `json.Marshal` writes it and a decoder reads
it back: each byte that is not part of a well-formed UTF-8 encoding is
replaced by U+FFFD (`EF BF BD`); well-formed encodings are kept. -/
def coerceUTF8Aux : Nat → GoString → GoString
  | _, [] => []
  | 0, _ :: _ => []
  | fuel + 1, b :: bs =>
    match decodeRune (b :: bs) with
    | none => encodeRune 0xFFFD ++ coerceUTF8Aux fuel bs
    | some (_, size) => (b :: bs).take size ++ coerceUTF8Aux fuel ((b :: bs).drop size)

/-- The coercion to valid UTF-8 of a whole string. -/
def coerceUTF8 (s : GoString) : GoString := coerceUTF8Aux s.length s

mutual
/-- A document as it is read back from its JSON text: every string, key or
value, coerced to valid UTF-8. -/
def coerceJson : Json → Json
  | .null => .null
  | .bool b => .bool b
  | .num neg mant exp => .num neg mant exp
  | .str s => .str (coerceUTF8 s)
  | .arr xs => .arr (coerceElems xs)
  | .obj kvs => .obj (coerceMembers kvs)
/-- The elements of an array read back. -/
def coerceElems : List Json → List Json
  | [] => []
  | x :: xs => coerceJson x :: coerceElems xs
/-- The members of an object read back. -/
def coerceMembers : List (GoString × Json) → List (GoString × Json)
  | [] => []
  | (k, v) :: kvs => (coerceUTF8 k, coerceJson v) :: coerceMembers kvs
end

mutual
/-- No number occurs in the document. -/
def numFree : Json → Bool
  | .num _ _ _ => false
  | .arr xs => numFreeElems xs
  | .obj kvs => numFreeMembers kvs
  | _ => true
/-- No number occurs in the elements. -/
def numFreeElems : List Json → Bool
  | [] => true
  | x :: xs => numFree x && numFreeElems xs
/-- No number occurs in the members. -/
def numFreeMembers : List (GoString × Json) → Bool
  | [] => true
  | (_, v) :: kvs => numFree v && numFreeMembers kvs
end

mutual
/-- The nesting depth of arrays and objects in a document. -/
def height : Json → Nat
  | .arr xs => heightElems xs + 1
  | .obj kvs => heightMembers kvs + 1
  | _ => 0
/-- The greatest nesting depth among the elements. -/
def heightElems : List Json → Nat
  | [] => 0
  | x :: xs => max (height x) (heightElems xs)
/-- The greatest nesting depth among the members. -/
def heightMembers : List (GoString × Json) → Nat
  | [] => 0
  | (_, v) :: kvs => max (height v) (heightMembers kvs)
end

/-- Go `json.Unmarshal(data, &v)` with `var v interface{}`: the error returned
and the value stored (`nil` when nothing is stored). -/
def jsonUnmarshalAny (data : GoString) : Option UnmarshalError × Json :=
  match parseJson data with
  | none => (some .syntaxError, .null)
  | some t => (if hasRangeError t then some .typeError else none, toGo t)

/-- Every string of a `[]string` is valid UTF-8. -/
def validStrings : Option (List GoString) → Bool
  | none => true
  | some xs => xs.all validUTF8

/-- Every string of an article is valid UTF-8. -/
def Articles.valid (a : Articles) : Bool :=
  validUTF8 a.Title && validUTF8 a.Description && validUTF8 a.Url && validUTF8 a.PicUrl

/-- Every string of a `[]Articles` is valid UTF-8. -/
def validArticles : Option (List Articles) → Bool
  | none => true
  | some as => as.all Articles.valid

/-- Every string of a message is valid UTF-8. -/
def Message.valid : Message → Bool
  | .text m =>
    validUTF8 m.MsgType && validUTF8 m.Text.Content && validStrings m.Text.MentionedList
      && validStrings m.Text.MentionedMobileList
  | .markdown m => validUTF8 m.MsgType && validUTF8 m.Markdown.Content
  | .image m => validUTF8 m.MsgType && validUTF8 m.Image.Base64 && validUTF8 m.Image.Md5
  | .news m => validUTF8 m.MsgType && validArticles m.News.Articles
  | .file m => validUTF8 m.MsgType && validUTF8 m.File.MediaId

/-- An article as a `map[string]interface{}`: its four fields under their
JSON names, listed in key order. -/
def Articles.generic (a : Articles) : Json :=
  .obj [(ascii "description", .str a.Description), (ascii "picurl", .str a.PicUrl),
        (ascii "title", .str a.Title), (ascii "url", .str a.Url)]

/-- A `[]Articles` as a generic value: `nil` for `nil`, else the articles in
the same order. -/
def articlesGeneric : Option (List Articles) → Json
  | none => .null
  | some as => .arr (as.map Articles.generic)

/-- A message as a `map[string]interface{}`: the keys and the values of the
struct, a `nil` slice as `nil`, a list as the list of its elements in the same
order, the members of every object listed in key order. -/
def Message.generic : Message → Json
  | .text m =>
    .obj [(ascii "msgtype", .str m.MsgType),
          (ascii "text", .obj [(ascii "content", .str m.Text.Content),
            (ascii "mentioned_list", stringsToJson m.Text.MentionedList),
            (ascii "mentioned_mobile_list", stringsToJson m.Text.MentionedMobileList)])]
  | .markdown m =>
    .obj [(ascii "markdown", .obj [(ascii "content", .str m.Markdown.Content)]),
          (ascii "msgtype", .str m.MsgType)]
  | .image m =>
    .obj [(ascii "image", .obj [(ascii "base64", .str m.Image.Base64),
            (ascii "md5", .str m.Image.Md5)]),
          (ascii "msgtype", .str m.MsgType)]
  | .news m =>
    .obj [(ascii "msgtype", .str m.MsgType),
          (ascii "news", .obj [(ascii "articles", articlesGeneric m.News.Articles)])]
  | .file m =>
    .obj [(ascii "file", .obj [(ascii "media_id", .str m.File.MediaId)]),
          (ascii "msgtype", .str m.MsgType)]

/-! ## Values used in the examples -/

/-- The key of the test file. -/
def testKey : GoString := ascii "8d734ce0-c4eb-40ea-aab3-acd71fbaf50d"

/-- A world in which every request is answered with the given body. -/
def answering (body : GoString) : World :=
  { restyPost := fun _ => .ok body
    boundary := ascii "0123456789abcdef0123456789abcdef0123456789abcdef0123456789ab"
    newRequest := fun _ _ => none
    clientDo := fun _ => .ok { data := body, err := none } }

/-- The first bytes of a JPEG file. -/
def jpegBytes : GoString := [0xFF, 0xD8, 0xFF, 0xE0, 0x00, 0x10, 0x4A, 0x46, 0x49, 0x46, 0x00]

/-! ## Response decoding -/

theorem sendDecode_object (body : GoString) (kvs : List (GoString × Json))
    (h : parseJson body = some (.obj kvs)) :
    sendDecode body =
      if eqFloat64Zero (mapIndex (toGoMembers kvs) (ascii "errcode")) then .ret none
      else
        match assertString (mapIndex (toGoMembers kvs) (ascii "errmsg")) with
        | some s => .ret (some (errorsNew s))
        | none => .panic "interface conversion: interface {} is not string" := by
  simp [sendDecode, jsonUnmarshalMap, h]

theorem eqFloat64Zero_mapIndex (item : List (GoString × Json)) (k : GoString) :
    eqFloat64Zero (mapIndex item k) = true ↔
      ∃ neg mant exp, mapLookup k item = some (.num neg mant exp) ∧ f64IsZero mant exp = true := by
  unfold mapIndex
  cases hl : mapLookup k item with
  | none => simp [eqFloat64Zero]
  | some v =>
    cases v with
    | num neg mant exp =>
      constructor
      · intro h
        exact ⟨neg, mant, exp, rfl, h⟩
      · rintro ⟨n, m, e, h1, h2⟩
        cases h1
        exact h2
    | _ => simp [eqFloat64Zero]

theorem assertString_mapIndex (item : List (GoString × Json)) (k : GoString) :
    assertString (mapIndex item k) = none ↔ ∀ s, mapLookup k item ≠ some (.str s) := by
  unfold mapIndex
  cases hl : mapLookup k item with
  | none => simp [assertString]
  | some v => cases v <;> simp [assertString]

theorem send_of_response (w : World) (r : Robot) (msg : Message) (resBody : GoString)
    (h : w.restyPost (sendRequest r (render noFloat msg.toJson)) = .ok resBody) :
    send w r msg = sendDecode resBody := by
  simp [send, jsonMarshal, h]

theorem uploadDecode_ok (body : GoString) (kvs : List (GoString × Json))
    (h : parseJson body = some (.obj kvs)) (he : (jsonUnmarshalMap body).err = none) :
    uploadDecode body =
      if !eqFloat64Zero (mapIndex (toGoMembers kvs) (ascii "errcode")) then
        match assertString (mapIndex (toGoMembers kvs) (ascii "errmsg")) with
        | some s => .ret ([], some (errorsNew s))
        | none => .panic "interface conversion: interface {} is not string"
      else
        match assertString (mapIndex (toGoMembers kvs) (ascii "media_id")) with
        | some s => .ret (s, none)
        | none => .panic "interface conversion: interface {} is not string" := by
  have hi : (jsonUnmarshalMap body).item = toGoMembers kvs := by simp [jsonUnmarshalMap, h]
  simp only [uploadDecode, he, hi]

theorem uploadDecode_invalid (body : GoString) (h : parseJson body = none) :
    uploadDecode body = .ret ([], some (errorsNew (utf8 "json 解析数据失败"))) := by
  simp [uploadDecode, jsonUnmarshalMap, h]

theorem uploadDecode_err (body : GoString) (h : (jsonUnmarshalMap body).err ≠ none) :
    uploadDecode body = .ret ([], some (errorsNew (utf8 "json 解析数据失败"))) := by
  cases he : (jsonUnmarshalMap body).err with
  | none => exact absurd he h
  | some e => simp only [uploadDecode, he]

theorem UploadFile_of_response (w : World) (r : Robot) (filename : GoString)
    (fileContent resp : Reader) (hf : fileContent.err = none)
    (hn : w.newRequest (ascii "POST") (uploadUrl r) = none)
    (hd : w.clientDo (uploadRequest w.boundary r filename fileContent.data) = .ok resp)
    (hr : resp.err = none) :
    UploadFile w r filename fileContent = uploadDecode resp.data := by
  simp [UploadFile, hf, hn, hd, hr]

theorem assertString_of_lookup (item : List (GoString × Json)) (k s : GoString)
    (h : mapLookup k item = some (.str s)) : assertString (mapIndex item k) = some s := by
  simp [mapIndex, h, assertString]

theorem escapeQuotes_plain (s : GoString)
    (h : ∀ c ∈ s, c ≠ 0x5C ∧ c ≠ 0x22 ∧ c ≠ 0x0D ∧ c ≠ 0x0A) : escapeQuotes s = s := by
  induction s with
  | nil => rfl
  | cons c cs ih =>
    obtain ⟨h1, h2, h3, h4⟩ := h c (List.mem_cons_self c cs)
    have hc : ¬ (c = 0x5C ∨ c = 0x22) := fun hh => hh.elim h1 h2
    simp only [escapeQuotes, hc, h3, h4, if_false]
    rw [ih (fun d hd => h d (List.mem_cons_of_mem c hd))]

/-! ## C2: the result of `send` is decided by `errcode` -/

/-- C2. Let the response body be valid JSON whose value is an object, and let
the decoded map bind `errmsg` to a string `m`. Then `send` returns the nil
error exactly when `errcode` is present and is a number whose `float64` value
is zero, and in every other case returns the error with message `m`. In
particular `{"errcode":0,"errmsg":"ok"}` gives success,
`{"errcode":93000,"errmsg":"invalid key"}` gives the error `invalid key`, and
so do a body without `errcode` and a body whose `errcode` is the string `"0"`.
Every builder ends in `send`, so the same holds for each of them. -/
theorem send_result_by_errcode :
    (∀ (w : World) (r : Robot) (msg : Message) (resBody : GoString)
        (kvs : List (GoString × Json)) (m : GoString),
        w.restyPost (sendRequest r (render noFloat msg.toJson)) = .ok resBody →
        parseJson resBody = some (.obj kvs) →
        mapLookup (ascii "errmsg") (toGoMembers kvs) = some (.str m) →
        ((∃ neg mant exp,
            mapLookup (ascii "errcode") (toGoMembers kvs) = some (.num neg mant exp) ∧
              f64IsZero mant exp = true) → send w r msg = .ret none) ∧
        ((¬ ∃ neg mant exp,
            mapLookup (ascii "errcode") (toGoMembers kvs) = some (.num neg mant exp) ∧
              f64IsZero mant exp = true) → send w r msg = .ret (some (errorsNew m)))) ∧
    (∀ (w : World) (r : Robot) (msg : Message),
        w.restyPost (sendRequest r (render noFloat msg.toJson))
          = .ok (ascii "\x7b\"errcode\":0,\"errmsg\":\"ok\"\x7d") →
        send w r msg = .ret none) ∧
    (∀ (w : World) (r : Robot) (msg : Message),
        w.restyPost (sendRequest r (render noFloat msg.toJson))
          = .ok (ascii "\x7b\"errcode\":93000,\"errmsg\":\"invalid key\"\x7d") →
        send w r msg = .ret (some (errorsNew (ascii "invalid key")))) ∧
    (∀ (w : World) (r : Robot) (msg : Message),
        w.restyPost (sendRequest r (render noFloat msg.toJson))
          = .ok (ascii "\x7b\"errmsg\":\"invalid key\"\x7d") →
        send w r msg = .ret (some (errorsNew (ascii "invalid key")))) ∧
    (∀ (w : World) (r : Robot) (msg : Message),
        w.restyPost (sendRequest r (render noFloat msg.toJson))
          = .ok (ascii "\x7b\"errcode\":\"0\",\"errmsg\":\"invalid key\"\x7d") →
        send w r msg = .ret (some (errorsNew (ascii "invalid key")))) := by
  refine ⟨?_, ?_, ?_, ?_, ?_⟩
  · intro w r msg resBody kvs m hpost hparse hmsg
    rw [send_of_response w r msg resBody hpost, sendDecode_object resBody kvs hparse]
    constructor
    · intro hz
      rw [if_pos ((eqFloat64Zero_mapIndex _ _).2 hz)]
    · intro hz
      have hne : ¬ eqFloat64Zero (mapIndex (toGoMembers kvs) (ascii "errcode")) = true :=
        fun h => hz ((eqFloat64Zero_mapIndex _ _).1 h)
      rw [if_neg hne, assertString_of_lookup _ _ _ hmsg]
  · intro w r msg h
    rw [send_of_response w r msg _ h]
    decide!
  · intro w r msg h
    rw [send_of_response w r msg _ h]
    decide!
  · intro w r msg h
    rw [send_of_response w r msg _ h]
    decide!
  · intro w r msg h
    rw [send_of_response w r msg _ h]
    decide!

/-- C2, at the body `{"errcode":0,"errmsg":"ok"}` answered to `SendText`. -/
theorem send_result_by_errcode_witness :
    send (answering (ascii "\x7b\"errcode\":0,\"errmsg\":\"ok\"\x7d")) (NewRobot testKey)
      (textEnvelope (ascii "hello") (some []) (some [])) = .ret none :=
  (send_result_by_errcode.1 (answering (ascii "\x7b\"errcode\":0,\"errmsg\":\"ok\"\x7d"))
    (NewRobot testKey) (textEnvelope (ascii "hello") (some []) (some []))
    (ascii "\x7b\"errcode\":0,\"errmsg\":\"ok\"\x7d")
    [(ascii "errcode", .num false 0 0), (ascii "errmsg", .str (ascii "ok"))] (ascii "ok")
    rfl rfl rfl).1 ⟨false, 0, 0, rfl, rfl⟩

/-! ## C3: the result of `UploadFile` is decided by `errcode` -/

/-- C3 (amended). Let the upload be answered with a body that is valid JSON
whose value is an object, the decoded map binding `errmsg` to a string `m` and
`media_id` to a string `mediaId`. If `json.Unmarshal` reports no error on the
body, `UploadFile` returns `(mediaId, nil)` exactly when `errcode` is present
and is a number whose `float64` value is zero, and in every other case
returns the empty string with the error `m`. If `json.Unmarshal` reports an
error (the object holds a number outside the range of `float64`),
`UploadFile` returns the empty string with the error `json 解析数据失败`. -/
theorem UploadFile_result_by_errcode (w : World) (r : Robot) (filename : GoString)
    (fileContent resp : Reader) (kvs : List (GoString × Json)) (m mediaId : GoString)
    (hf : fileContent.err = none)
    (hn : w.newRequest (ascii "POST") (uploadUrl r) = none)
    (hd : w.clientDo (uploadRequest w.boundary r filename fileContent.data) = .ok resp)
    (hr : resp.err = none)
    (hparse : parseJson resp.data = some (.obj kvs))
    (hmsg : mapLookup (ascii "errmsg") (toGoMembers kvs) = some (.str m))
    (hid : mapLookup (ascii "media_id") (toGoMembers kvs) = some (.str mediaId)) :
    ((jsonUnmarshalMap resp.data).err = none →
      ((∃ neg mant exp,
          mapLookup (ascii "errcode") (toGoMembers kvs) = some (.num neg mant exp) ∧
            f64IsZero mant exp = true) →
        UploadFile w r filename fileContent = .ret (mediaId, none)) ∧
      ((¬ ∃ neg mant exp,
          mapLookup (ascii "errcode") (toGoMembers kvs) = some (.num neg mant exp) ∧
            f64IsZero mant exp = true) →
        UploadFile w r filename fileContent = .ret ([], some (errorsNew m)))) ∧
    ((jsonUnmarshalMap resp.data).err ≠ none →
      UploadFile w r filename fileContent
        = .ret ([], some (errorsNew (utf8 "json 解析数据失败")))) := by
  rw [UploadFile_of_response w r filename fileContent resp hf hn hd hr]
  refine ⟨?_, uploadDecode_err resp.data⟩
  intro he
  rw [uploadDecode_ok resp.data kvs hparse he]
  constructor
  · intro hz
    have h1 : eqFloat64Zero (mapIndex (toGoMembers kvs) (ascii "errcode")) = true :=
      (eqFloat64Zero_mapIndex _ _).2 hz
    simp [h1, assertString_of_lookup _ _ _ hid]
  · intro hz
    have h1 : eqFloat64Zero (mapIndex (toGoMembers kvs) (ascii "errcode")) = false := by
      cases h : eqFloat64Zero (mapIndex (toGoMembers kvs) (ascii "errcode")) with
      | false => rfl
      | true => exact absurd ((eqFloat64Zero_mapIndex _ _).1 h) hz
    simp [h1, assertString_of_lookup _ _ _ hmsg]

/-- C3, at the answer `{"errcode":0,"errmsg":"ok","media_id":"3a8asd892asd8asd"}`
to the upload of `image.jpg`. -/
theorem UploadFile_result_by_errcode_witness :
    UploadFile
        (answering (ascii "\x7b\"errcode\":0,\"errmsg\":\"ok\",\"media_id\":\"3a8asd892asd8asd\"\x7d"))
        (NewRobot testKey) (ascii "image.jpg") { data := jpegBytes, err := none }
      = .ret (ascii "3a8asd892asd8asd", none) :=
  (UploadFile_result_by_errcode
    (answering (ascii "\x7b\"errcode\":0,\"errmsg\":\"ok\",\"media_id\":\"3a8asd892asd8asd\"\x7d"))
    (NewRobot testKey) (ascii "image.jpg") { data := jpegBytes, err := none }
    { data := ascii "\x7b\"errcode\":0,\"errmsg\":\"ok\",\"media_id\":\"3a8asd892asd8asd\"\x7d",
      err := none }
    [(ascii "errcode", .num false 0 0), (ascii "errmsg", .str (ascii "ok")),
      (ascii "media_id", .str (ascii "3a8asd892asd8asd"))]
    (ascii "ok") (ascii "3a8asd892asd8asd") rfl rfl rfl rfl rfl rfl rfl).1 (by decide!)
    |>.1 ⟨false, 0, 0, rfl, rfl⟩

/-- C3 as stated fails: the answer
`{"errcode":0,"errmsg":"ok","media_id":"m","big":1e999}`. The body is valid
JSON, its value is an object, `errmsg` and `media_id` are strings and
`errcode` is the number zero; but `1e999` is outside the range of `float64`,
`json.Unmarshal` reports an error, and `UploadFile` returns the empty string
with `json 解析数据失败`, not `("m", nil)`. -/
theorem UploadFile_rejects_out_of_range_number :
    parseJson (ascii
        "\x7b\"errcode\":0,\"errmsg\":\"ok\",\"media_id\":\"m\",\"big\":1e999\x7d")
      = some (.obj [(ascii "errcode", .num false 0 0), (ascii "errmsg", .str (ascii "ok")),
          (ascii "media_id", .str (ascii "m")), (ascii "big", .num false 1 999)]) ∧
    mapLookup (ascii "errmsg")
        (toGoMembers [(ascii "errcode", .num false 0 0), (ascii "errmsg", .str (ascii "ok")),
          (ascii "media_id", .str (ascii "m")), (ascii "big", .num false 1 999)])
      = some (.str (ascii "ok")) ∧
    mapLookup (ascii "media_id")
        (toGoMembers [(ascii "errcode", .num false 0 0), (ascii "errmsg", .str (ascii "ok")),
          (ascii "media_id", .str (ascii "m")), (ascii "big", .num false 1 999)])
      = some (.str (ascii "m")) ∧
    mapLookup (ascii "errcode")
        (toGoMembers [(ascii "errcode", .num false 0 0), (ascii "errmsg", .str (ascii "ok")),
          (ascii "media_id", .str (ascii "m")), (ascii "big", .num false 1 999)])
      = some (.num false 0 0) ∧
    f64IsZero 0 0 = true ∧
    UploadFile
        (answering (ascii
          "\x7b\"errcode\":0,\"errmsg\":\"ok\",\"media_id\":\"m\",\"big\":1e999\x7d"))
        (NewRobot testKey) (ascii "image.jpg") { data := jpegBytes, err := none }
      = .ret ([], some (errorsNew (utf8 "json 解析数据失败"))) ∧
    UploadFile
        (answering (ascii
          "\x7b\"errcode\":0,\"errmsg\":\"ok\",\"media_id\":\"m\",\"big\":1e999\x7d"))
        (NewRobot testKey) (ascii "image.jpg") { data := jpegBytes, err := none }
      ≠ .ret (ascii "m", none) := by
  refine ⟨rfl, rfl, rfl, rfl, rfl, ?_, ?_⟩
  · decide!
  · decide!

/-! ## C4: `send` on a body that is not JSON -/

/-- C4 (what the code does). On an empty response body, and on a body that is
not JSON, `send` drops the error of `json.Unmarshal`, finds no `errcode` in
the empty map and panics on the type assertion of the missing `errmsg`: it
returns no error to the caller. On the same bodies `UploadFile`, which keeps
the error of `json.Unmarshal`, returns an error. -/
theorem send_panics_without_json :
    send (answering []) (NewRobot testKey) (textEnvelope (ascii "hello") (some []) (some []))
        = .panic "interface conversion: interface {} is not string" ∧
    send (answering (ascii "<html>502 Bad Gateway</html>")) (NewRobot testKey)
        (textEnvelope (ascii "hello") (some []) (some []))
        = .panic "interface conversion: interface {} is not string" ∧
    UploadFile (answering []) (NewRobot testKey) (ascii "image.jpg")
        { data := jpegBytes, err := none }
        = .ret ([], some (errorsNew (utf8 "json 解析数据失败"))) := by
  refine ⟨?_, ?_, ?_⟩
  · rw [send_of_response _ _ _ [] rfl]
    decide!
  · rw [send_of_response _ _ _ (ascii "<html>502 Bad Gateway</html>") rfl]
    decide!
  · rw [UploadFile_of_response _ _ _ _ { data := [], err := none } rfl rfl rfl rfl]
    decide!

/-! ## C5: `UploadFile` on a body that is not JSON -/

/-- C5. Whatever the file name and the file content, when the response body
is not valid JSON (the empty body is not), `UploadFile` returns the empty
media id together with the error `json 解析数据失败`; it does not panic and its
result does not depend on any `errcode`, `errmsg` or `media_id`. -/
theorem UploadFile_invalid_json (w : World) (r : Robot) (filename : GoString)
    (fileContent resp : Reader)
    (hf : fileContent.err = none)
    (hn : w.newRequest (ascii "POST") (uploadUrl r) = none)
    (hd : w.clientDo (uploadRequest w.boundary r filename fileContent.data) = .ok resp)
    (hr : resp.err = none)
    (hbody : resp.data = [] ∨ parseJson resp.data = none) :
    UploadFile w r filename fileContent
      = .ret ([], some (errorsNew (utf8 "json 解析数据失败"))) := by
  rw [UploadFile_of_response w r filename fileContent resp hf hn hd hr]
  apply uploadDecode_invalid
  rcases hbody with h | h
  · rw [h]; rfl
  · exact h

/-- C5, at a gateway error page answered to the upload of `image.jpg`. -/
theorem UploadFile_invalid_json_witness :
    UploadFile (answering (ascii "<html>502 Bad Gateway</html>")) (NewRobot testKey)
        (ascii "image.jpg") { data := jpegBytes, err := none }
      = .ret ([], some (errorsNew (utf8 "json 解析数据失败"))) :=
  UploadFile_invalid_json (answering (ascii "<html>502 Bad Gateway</html>")) (NewRobot testKey)
    (ascii "image.jpg") { data := jpegBytes, err := none }
    { data := ascii "<html>502 Bad Gateway</html>", err := none } rfl rfl rfl rfl (Or.inr rfl)

theorem sendDecode_invalid (body : GoString) (h : parseJson body = none) :
    sendDecode body = .panic "interface conversion: interface {} is not string" := by
  simp only [sendDecode, jsonUnmarshalMap, h]
  decide!

/-! ## C7: the two URLs -/

/-- C7. `NewRobot k` stores `k` unchanged. For every message, `send` hands the
HTTP client one request, whose URL is
`https://qyapi.weixin.qq.com/cgi-bin/webhook/send?key=` followed by the bytes
of `k`; for every file name and content, the request of `UploadFile` has the
URL `https://qyapi.weixin.qq.com/cgi-bin/webhook/upload_media?key=` followed
by the bytes of `k` and by `&type=file`. The key is not escaped, and neither
URL depends on the message, the file name, the content or the boundary. -/
theorem urls_from_key (k : GoString) :
    (NewRobot k).Key = k ∧
    (∀ (msg : Message),
      ∃ req : Request,
        req.url = ascii "https://qyapi.weixin.qq.com/cgi-bin/webhook/send?key=" ++ k ∧
        ∀ w : World,
          send w (NewRobot k) msg =
            match w.restyPost req with
            | .error err => .ret (some err)
            | .ok resBody => sendDecode resBody) ∧
    (∀ (boundary filename : GoString) (fileContent : Reader),
      ∃ req : Request,
        req.url = ascii "https://qyapi.weixin.qq.com/cgi-bin/webhook/upload_media?key=" ++ k
          ++ ascii "&type=file" ∧
        ∀ w : World, w.boundary = boundary → fileContent.err = none →
          (w.newRequest (ascii "POST") req.url = none →
            UploadFile w (NewRobot k) filename fileContent =
              match w.clientDo req with
              | .error err => .ret ([], some err)
              | .ok resp =>
                match resp.err with
                | some err => .ret ([], some err)
                | none => uploadDecode resp.data) ∧
          (∀ err, w.newRequest (ascii "POST") req.url = some err →
            UploadFile w (NewRobot k) filename fileContent = .ret ([], some err))) := by
  refine ⟨rfl, ?_, ?_⟩
  · intro msg
    exact ⟨sendRequest (NewRobot k) (render noFloat msg.toJson), rfl, fun _ => rfl⟩
  · intro boundary filename fileContent
    refine ⟨uploadRequest boundary (NewRobot k) filename fileContent.data, rfl, ?_⟩
    intro w hb hf
    subst hb
    constructor
    · intro hn
      have hn' : w.newRequest (ascii "POST") (uploadUrl (NewRobot k)) = none := hn
      simp [UploadFile, hf, hn']
    · intro err hn
      have hn' : w.newRequest (ascii "POST") (uploadUrl (NewRobot k)) = some err := hn
      simp [UploadFile, hf, hn']

/-- C7, at the key of the test file: the stored key and the URL of `send`. -/
theorem urls_from_key_witness :
    (NewRobot testKey).Key = testKey ∧
    ∃ req : Request,
      req.url = ascii
        "https://qyapi.weixin.qq.com/cgi-bin/webhook/send?key=8d734ce0-c4eb-40ea-aab3-acd71fbaf50d" ∧
      send (answering (ascii "\x7b\"errcode\":0,\"errmsg\":\"ok\"\x7d")) (NewRobot testKey)
          (markdownEnvelope (ascii "# hello")) =
        match (answering (ascii "\x7b\"errcode\":0,\"errmsg\":\"ok\"\x7d")).restyPost req with
        | .error err => .ret (some err)
        | .ok resBody => sendDecode resBody :=
  ⟨(urls_from_key testKey).1,
    ((urls_from_key testKey).2.1 (markdownEnvelope (ascii "# hello"))).elim
      (fun req h => ⟨req, h.1.trans (by decide!), h.2 _⟩)⟩

/-! ## C6: the builders copy their arguments -/

/-- C6. Each builder passes `send` an envelope that holds its arguments as
given, whatever their size: the strings are the given strings and the lists
are the given lists (same elements, same order, same length, `nil` staying
`nil`). No builder has a check of its own: the result of each is the result
of `send` on that envelope, so a text of more than 2048 bytes, a markdown of
more than 4096 bytes, no article or more than eight, or a title of more than
128 bytes is sent as it is. -/
theorem builders_copy_arguments (w : World) (r : Robot) :
    (∀ content mentionedList mentionedMobileList,
      SendText w r content mentionedList mentionedMobileList
        = send w r (textEnvelope content mentionedList mentionedMobileList) ∧
      ∃ m, textEnvelope content mentionedList mentionedMobileList = .text m ∧
        m.Text.Content = content ∧ m.Text.MentionedList = mentionedList ∧
        m.Text.MentionedMobileList = mentionedMobileList) ∧
    (∀ content,
      SendMarkdown w r content = send w r (markdownEnvelope content) ∧
      ∃ m, markdownEnvelope content = .markdown m ∧ m.Markdown.Content = content) ∧
    (∀ base64 md5,
      SendImage w r base64 md5 = send w r (imageEnvelope base64 md5) ∧
      ∃ m, imageEnvelope base64 md5 = .image m ∧ m.Image.Base64 = base64 ∧ m.Image.Md5 = md5) ∧
    (∀ articles,
      SendNews w r articles = send w r (newsEnvelope articles) ∧
      ∃ m, newsEnvelope articles = .news m ∧ m.News.Articles = articles ∧
        m.News.Articles.map List.length = articles.map List.length) ∧
    (∀ mediaId,
      SendFile w r mediaId = send w r (fileEnvelope mediaId) ∧
      ∃ m, fileEnvelope mediaId = .file m ∧ m.File.MediaId = mediaId) :=
  ⟨fun _ _ _ => ⟨rfl, _, rfl, rfl, rfl, rfl⟩, fun _ => ⟨rfl, _, rfl, rfl⟩,
    fun _ _ => ⟨rfl, _, rfl, rfl, rfl⟩, fun _ => ⟨rfl, _, rfl, rfl, rfl⟩,
    fun _ => ⟨rfl, _, rfl, rfl⟩⟩

/-! ## C8: the multipart body -/

theorem uploadWriter_buf (boundary filename data : GoString) :
    (uploadWriter boundary filename data).buf =
      (ascii "--" ++ boundary ++ ascii "\r\n"
        ++ ascii "Content-Disposition: form-data; name=\"media\"; filename=\""
        ++ escapeQuotes filename ++ ascii "\"\r\n"
        ++ ascii "Content-Type: application/octet-stream\r\n"
        ++ ascii "\r\n")
        ++ (data ++ (ascii "\r\n--" ++ boundary ++ ascii "--\r\n")) := by
  simp only [uploadWriter, NewWriter, Writer.CreateFormFile, Writer.CreatePart, Writer.Write,
    Writer.Close, headerLine, List.append_assoc, List.map, List.flatten, List.nil_append,
    List.append_nil, if_false, Bool.false_eq_true]
  rfl

theorem uploadHeader_length (boundary filename : GoString) :
    (ascii "--" ++ boundary ++ ascii "\r\n"
        ++ ascii "Content-Disposition: form-data; name=\"media\"; filename=\""
        ++ escapeQuotes filename ++ ascii "\"\r\n"
        ++ ascii "Content-Type: application/octet-stream\r\n"
        ++ ascii "\r\n").length = boundary.length + (escapeQuotes filename).length + 105 := by
  have hlen1 : (ascii "--").length = 2 := by decide
  have hlen2 : (ascii "\r\n").length = 2 := by decide
  have hlen3 :
      (ascii "Content-Disposition: form-data; name=\"media\"; filename=\"").length = 56 := by
    decide
  have hlen4 : (ascii "\"\r\n").length = 3 := by decide
  have hlen5 : (ascii "Content-Type: application/octet-stream\r\n").length = 40 := by decide
  simp only [List.length_append, hlen1, hlen2, hlen3, hlen4, hlen5]
  omega

/-- C8 (amended). For every file name and every reader that delivers its bytes
`data` without error, the body of the request `UploadFile` hands to the HTTP
client is, for the boundary `b` of the writer, exactly `--b CRLF`, the header
lines `Content-Disposition: form-data; name="media"; filename="F"` and
`Content-Type: application/octet-stream`, an empty line, the bytes `data`
from first to last, and the closing delimiter `CRLF --b-- CRLF`: one part,
named `media`, whose content starts right after the header and is the whole
of `data`, unchanged. `F` is the file name as `escapeQuotes` writes it
(`\\` for `\`, `\"` for `"`, `%0D` for CR, `%0A` for LF); it is the given
file name, byte for byte, when the name holds none of these four bytes. A
reader that fails makes `UploadFile` return its error. -/
theorem upload_body_one_part (boundary : GoString) (r : Robot) (filename : GoString)
    (fileContent : Reader) :
    (∀ w : World, w.boundary = boundary → fileContent.err = none →
        w.newRequest (ascii "POST") (uploadUrl r) = none →
        UploadFile w r filename fileContent =
          match w.clientDo (uploadRequest boundary r filename fileContent.data) with
          | .error err => .ret ([], some err)
          | .ok resp =>
            match resp.err with
            | some err => .ret ([], some err)
            | none => uploadDecode resp.data) ∧
    (∀ (w : World) (err : GoError), fileContent.err = some err →
        UploadFile w r filename fileContent = .ret ([], some err)) ∧
    (uploadRequest boundary r filename fileContent.data).body =
      ascii "--" ++ boundary ++ ascii "\r\n"
        ++ ascii "Content-Disposition: form-data; name=\"media\"; filename=\""
        ++ escapeQuotes filename ++ ascii "\"\r\n"
        ++ ascii "Content-Type: application/octet-stream\r\n"
        ++ ascii "\r\n"
        ++ fileContent.data
        ++ ascii "\r\n--" ++ boundary ++ ascii "--\r\n" ∧
    ((∀ c ∈ filename, c ≠ 0x5C ∧ c ≠ 0x22 ∧ c ≠ 0x0D ∧ c ≠ 0x0A) →
      (uploadRequest boundary r filename fileContent.data).body =
        ascii "--" ++ boundary ++ ascii "\r\n"
          ++ ascii "Content-Disposition: form-data; name=\"media\"; filename=\""
          ++ filename ++ ascii "\"\r\n"
          ++ ascii "Content-Type: application/octet-stream\r\n"
          ++ ascii "\r\n"
          ++ fileContent.data
          ++ ascii "\r\n--" ++ boundary ++ ascii "--\r\n") ∧
    (((uploadRequest boundary r filename fileContent.data).body.drop
        (boundary.length + (escapeQuotes filename).length + 105)).take
        fileContent.data.length = fileContent.data) ∧
    (uploadRequest boundary r filename fileContent.data).body.length =
      (boundary.length + (escapeQuotes filename).length + 105) + fileContent.data.length
        + (boundary.length + 8) := by
  have hbuf := uploadWriter_buf boundary filename fileContent.data
  have hlen := uploadHeader_length boundary filename
  have hbody : (uploadRequest boundary r filename fileContent.data).body =
      (uploadWriter boundary filename fileContent.data).buf := rfl
  refine ⟨?_, ?_, ?_, ?_, ?_, ?_⟩
  · intro w hb hf hn
    subst hb
    simp [UploadFile, hf, hn]
  · intro w err hf
    simp [UploadFile, hf]
  · rw [hbody, hbuf]
    simp only [List.append_assoc]
  · intro hplain
    rw [hbody, hbuf, escapeQuotes_plain filename hplain]
    simp only [List.append_assoc]
  · rw [hbody, hbuf, List.drop_left' hlen, List.take_left' rfl]
  · have hlen6 : (ascii "\r\n--").length = 4 := by decide
    have hlen7 : (ascii "--\r\n").length = 4 := by decide
    rw [hbody, hbuf, List.length_append, hlen]
    simp only [List.length_append, hlen6, hlen7]
    omega

/-- C8, at the file name `image.jpg`, which holds no byte that is escaped, and
the first bytes of a JPEG file. -/
theorem upload_body_one_part_witness :
    (uploadRequest (ascii "5f0c") (NewRobot testKey) (ascii "image.jpg") jpegBytes).body =
      ascii "--" ++ ascii "5f0c" ++ ascii "\r\n"
        ++ ascii "Content-Disposition: form-data; name=\"media\"; filename=\""
        ++ ascii "image.jpg" ++ ascii "\"\r\n"
        ++ ascii "Content-Type: application/octet-stream\r\n"
        ++ ascii "\r\n"
        ++ jpegBytes
        ++ ascii "\r\n--" ++ ascii "5f0c" ++ ascii "--\r\n" :=
  (upload_body_one_part (ascii "5f0c") (NewRobot testKey) (ascii "image.jpg")
    { data := jpegBytes, err := none }).2.2.2.1 (by decide)

/-- C8 as stated fails: the upload of the file name `a CR LF b.txt`. The
header of the one part carries `filename="a%0D%0Ab.txt"`: the bytes written
for the name are not the given name, and the body is not the one that would
carry the given name. -/
theorem upload_body_escapes_crlf :
    (uploadRequest (ascii "5f0c") (NewRobot testKey) (ascii "a\r\nb.txt") jpegBytes).body =
      ascii "--5f0c\r\nContent-Disposition: form-data; name=\"media\"; filename=\"a%0D%0Ab.txt\"\r\nContent-Type: application/octet-stream\r\n\r\n"
        ++ jpegBytes ++ ascii "\r\n--5f0c--\r\n" ∧
    escapeQuotes (ascii "a\r\nb.txt") = ascii "a%0D%0Ab.txt" ∧
    ascii "a%0D%0Ab.txt" ≠ ascii "a\r\nb.txt" ∧
    (uploadRequest (ascii "5f0c") (NewRobot testKey) (ascii "a\r\nb.txt") jpegBytes).body ≠
      ascii "--5f0c\r\nContent-Disposition: form-data; name=\"media\"; filename=\""
        ++ ascii "a\r\nb.txt" ++ ascii "\"\r\nContent-Type: application/octet-stream\r\n\r\n"
        ++ jpegBytes ++ ascii "\r\n--5f0c--\r\n" := by
  decide!

/-! ## C10: when the type assertions panic -/

/-- C10 (amended). `send`: let the response body be valid JSON whose value is
an object; `send` panics exactly when `errcode` is not a number of `float64`
value zero and `errmsg` is absent or not a string. `UploadFile`: let the
response body be decoded by `json.Unmarshal` without error as an object;
`UploadFile` panics exactly when either that holds, or `errcode` is such a
zero and `media_id` is absent or not a string. (When `json.Unmarshal` reports
an error `UploadFile` returns an error and does not panic.) A panic returns
neither a result nor an error. The body `{}` makes both panic; on
`{"errcode":0}` `send` returns the nil error and `UploadFile` panics. -/
theorem panics_on_missing_field :
    (∀ (w : World) (r : Robot) (msg : Message) (resBody : GoString)
        (kvs : List (GoString × Json)),
        w.restyPost (sendRequest r (render noFloat msg.toJson)) = .ok resBody →
        parseJson resBody = some (.obj kvs) →
        ((∃ what, send w r msg = .panic what) ↔
          ((¬ ∃ neg mant exp,
              mapLookup (ascii "errcode") (toGoMembers kvs) = some (.num neg mant exp) ∧
                f64IsZero mant exp = true) ∧
            ∀ s, mapLookup (ascii "errmsg") (toGoMembers kvs) ≠ some (.str s)))) ∧
    (∀ (w : World) (r : Robot) (filename : GoString) (fileContent resp : Reader)
        (kvs : List (GoString × Json)),
        fileContent.err = none →
        w.newRequest (ascii "POST") (uploadUrl r) = none →
        w.clientDo (uploadRequest w.boundary r filename fileContent.data) = .ok resp →
        resp.err = none →
        parseJson resp.data = some (.obj kvs) →
        ((jsonUnmarshalMap resp.data).err = none →
          ((∃ what, UploadFile w r filename fileContent = .panic what) ↔
            (((¬ ∃ neg mant exp,
                mapLookup (ascii "errcode") (toGoMembers kvs) = some (.num neg mant exp) ∧
                  f64IsZero mant exp = true) ∧
              ∀ s, mapLookup (ascii "errmsg") (toGoMembers kvs) ≠ some (.str s)) ∨
            ((∃ neg mant exp,
                mapLookup (ascii "errcode") (toGoMembers kvs) = some (.num neg mant exp) ∧
                  f64IsZero mant exp = true) ∧
              ∀ s, mapLookup (ascii "media_id") (toGoMembers kvs) ≠ some (.str s))))) ∧
        ((jsonUnmarshalMap resp.data).err ≠ none →
          UploadFile w r filename fileContent
            = .ret ([], some (errorsNew (utf8 "json 解析数据失败"))))) ∧
    (∃ what, send (answering (ascii "\x7b\x7d")) (NewRobot testKey)
        (textEnvelope (ascii "hello") (some []) (some [])) = .panic what) ∧
    (∃ what, UploadFile (answering (ascii "\x7b\x7d")) (NewRobot testKey) (ascii "image.jpg")
        { data := jpegBytes, err := none } = .panic what) ∧
    send (answering (ascii "\x7b\"errcode\":0\x7d")) (NewRobot testKey)
        (textEnvelope (ascii "hello") (some []) (some [])) = .ret none ∧
    (∃ what, UploadFile (answering (ascii "\x7b\"errcode\":0\x7d")) (NewRobot testKey)
        (ascii "image.jpg") { data := jpegBytes, err := none } = .panic what) := by
  refine ⟨?_, ?_, ?_, ?_, ?_, ?_⟩
  · intro w r msg resBody kvs hpost hparse
    rw [send_of_response w r msg resBody hpost, sendDecode_object resBody kvs hparse,
      ← eqFloat64Zero_mapIndex, ← assertString_mapIndex]
    cases hz : eqFloat64Zero (mapIndex (toGoMembers kvs) (ascii "errcode")) <;>
      cases ha : assertString (mapIndex (toGoMembers kvs) (ascii "errmsg")) <;> simp
  · intro w r filename fileContent resp kvs hf hn hd hr hparse
    rw [UploadFile_of_response w r filename fileContent resp hf hn hd hr]
    refine ⟨?_, uploadDecode_err resp.data⟩
    intro he
    rw [uploadDecode_ok resp.data kvs hparse he,
      ← eqFloat64Zero_mapIndex, ← assertString_mapIndex, ← assertString_mapIndex]
    cases hz : eqFloat64Zero (mapIndex (toGoMembers kvs) (ascii "errcode")) <;>
      cases ha : assertString (mapIndex (toGoMembers kvs) (ascii "errmsg")) <;>
      cases hm : assertString (mapIndex (toGoMembers kvs) (ascii "media_id")) <;> simp
  · refine ⟨"interface conversion: interface {} is not string", ?_⟩
    rw [send_of_response _ _ _ (ascii "\x7b\x7d") rfl]
    decide!
  · refine ⟨"interface conversion: interface {} is not string", ?_⟩
    rw [UploadFile_of_response _ _ _ _ { data := ascii "\x7b\x7d", err := none } rfl rfl rfl rfl]
    decide!
  · rw [send_of_response _ _ _ (ascii "\x7b\"errcode\":0\x7d") rfl]
    decide!
  · refine ⟨"interface conversion: interface {} is not string", ?_⟩
    rw [UploadFile_of_response _ _ _ _ { data := ascii "\x7b\"errcode\":0\x7d", err := none }
      rfl rfl rfl rfl]
    decide!

/-- C10, at the body `{"errcode":40001}` answered to `SendText`: no `errmsg`
and an `errcode` that is not zero, so `send` panics. -/
theorem panics_on_missing_field_witness :
    ∃ what, send (answering (ascii "\x7b\"errcode\":40001\x7d")) (NewRobot testKey)
      (textEnvelope (ascii "hello") (some []) (some [])) = .panic what := by
  have hcode : mapLookup (ascii "errcode") (toGoMembers [(ascii "errcode", .num false 40001 0)])
      = some (.num false 40001 0) := rfl
  have hmsg : mapLookup (ascii "errmsg") (toGoMembers [(ascii "errcode", .num false 40001 0)])
      = none := rfl
  refine (panics_on_missing_field.1 (answering (ascii "\x7b\"errcode\":40001\x7d"))
    (NewRobot testKey) (textEnvelope (ascii "hello") (some []) (some []))
    (ascii "\x7b\"errcode\":40001\x7d") [(ascii "errcode", .num false 40001 0)] rfl rfl).2
    ⟨?_, ?_⟩
  · rintro ⟨neg, mant, exp, h1, h2⟩
    rw [hcode] at h1
    cases h1
    revert h2
    decide!
  · intro s h
    rw [hmsg] at h
    cases h

/-- C10 as stated fails for `UploadFile`: the answer `{"errcode":1e999}`. The
body is valid JSON and its value is an object; `errcode` is not a number of
value zero (nothing is stored for a number outside the range of `float64`)
and `errmsg` is absent, so the claim has `UploadFile` panic. `json.Unmarshal`
reports an error and `UploadFile` returns `json 解析数据失败`; it does not
panic. -/
theorem UploadFile_returns_error_on_out_of_range_errcode :
    parseJson (ascii "\x7b\"errcode\":1e999\x7d")
      = some (.obj [(ascii "errcode", .num false 1 999)]) ∧
    (¬ ∃ neg mant exp,
        mapLookup (ascii "errcode") (toGoMembers [(ascii "errcode", .num false 1 999)])
          = some (.num neg mant exp) ∧ f64IsZero mant exp = true) ∧
    (∀ s, mapLookup (ascii "errmsg") (toGoMembers [(ascii "errcode", .num false 1 999)])
        ≠ some (.str s)) ∧
    UploadFile (answering (ascii "\x7b\"errcode\":1e999\x7d")) (NewRobot testKey)
        (ascii "image.jpg") { data := jpegBytes, err := none }
      = .ret ([], some (errorsNew (utf8 "json 解析数据失败"))) ∧
    ¬ ∃ what, UploadFile (answering (ascii "\x7b\"errcode\":1e999\x7d")) (NewRobot testKey)
        (ascii "image.jpg") { data := jpegBytes, err := none } = .panic what := by
  have hcode : mapLookup (ascii "errcode") (toGoMembers [(ascii "errcode", .num false 1 999)])
      = some .null := rfl
  have hmsg : mapLookup (ascii "errmsg") (toGoMembers [(ascii "errcode", .num false 1 999)])
      = none := rfl
  have hup : UploadFile (answering (ascii "\x7b\"errcode\":1e999\x7d")) (NewRobot testKey)
        (ascii "image.jpg") { data := jpegBytes, err := none }
      = .ret ([], some (errorsNew (utf8 "json 解析数据失败"))) := by decide!
  refine ⟨rfl, ?_, ?_, hup, ?_⟩
  · rintro ⟨neg, mant, exp, h1, _⟩
    rw [hcode] at h1
    cases h1
  · intro s h
    rw [hmsg] at h
    cases h
  · rintro ⟨what, h⟩
    rw [hup] at h
    cases h

/-! ## UTF-8: decoding and encoding a rune -/

theorem isCont_iff (b : Nat) : isCont b = true ↔ 0x80 ≤ b ∧ b ≤ 0xBF := by
  simp [isCont]

theorem decodeRune_spec (l : GoString) (r size : Nat) (h : decodeRune l = some (r, size)) :
    encodeRune r = l.take size ∧ 1 ≤ size ∧ size ≤ l.length ∧
      (0x80 ≤ l.headD 0 → 0x80 ≤ r) ∧ ¬ (0xD800 ≤ r ∧ r ≤ 0xDFFF) := by
  cases l with
  | nil => simp [decodeRune] at h
  | cons b0 rest =>
    simp only [decodeRune] at h
    split_ifs at h with h1 h2 h3 h4
    · simp only [Option.some.injEq, Prod.mk.injEq] at h
      obtain ⟨rfl, rfl⟩ := h
      simp [encodeRune, h1]
      omega
    · cases rest with
      | nil => simp at h
      | cons b1 rest =>
        simp only at h
        split_ifs at h with hc
        simp only [Option.some.injEq, Prod.mk.injEq] at h
        obtain ⟨rfl, rfl⟩ := h
        rw [isCont_iff] at hc
        refine ⟨?_, by omega, by simp, fun _ => by omega, by omega⟩
        have e1 : ¬ ((b0 - 0xC0) * 64 + (b1 - 0x80) < 0x80) := by omega
        have e2 : (b0 - 0xC0) * 64 + (b1 - 0x80) < 0x800 := by omega
        simp only [encodeRune, e1, e2, if_true, if_false, List.take]
        congr 1
        · omega
        · congr 1
          omega
    · match rest, h with
      | [], h => simp at h
      | [_], h => simp at h
      | b1 :: b2 :: rest, h =>
        simp only at h
        split_ifs at h with hc
        simp only [Option.some.injEq, Prod.mk.injEq] at h
        obtain ⟨rfl, rfl⟩ := h
        simp only [Bool.and_eq_true, Bool.or_eq_true, decide_eq_true_eq, isCont_iff] at hc
        refine ⟨?_, by omega, by simp, fun _ => by omega, by omega⟩
        have e1 : ¬ ((b0 - 0xE0) * 4096 + (b1 - 0x80) * 64 + (b2 - 0x80) < 0x80) := by omega
        have e2 : ¬ ((b0 - 0xE0) * 4096 + (b1 - 0x80) * 64 + (b2 - 0x80) < 0x800) := by omega
        have e3 : ¬ ((0xD800 ≤ (b0 - 0xE0) * 4096 + (b1 - 0x80) * 64 + (b2 - 0x80) ∧
            (b0 - 0xE0) * 4096 + (b1 - 0x80) * 64 + (b2 - 0x80) ≤ 0xDFFF) ∨
            0x10FFFF < (b0 - 0xE0) * 4096 + (b1 - 0x80) * 64 + (b2 - 0x80)) := by omega
        have e4 : (b0 - 0xE0) * 4096 + (b1 - 0x80) * 64 + (b2 - 0x80) < 0x10000 := by omega
        simp only [encodeRune, e1, e2, e3, e4, if_true, if_false, List.take]
        congr 1
        · omega
        · congr 1
          · omega
          · congr 1
            omega
    · match rest, h with
      | [], h => simp at h
      | [_], h => simp at h
      | [_, _], h => simp at h
      | b1 :: b2 :: b3 :: rest, h =>
        simp only at h
        split_ifs at h with hc
        simp only [Option.some.injEq, Prod.mk.injEq] at h
        obtain ⟨rfl, rfl⟩ := h
        simp only [Bool.and_eq_true, Bool.or_eq_true, decide_eq_true_eq, isCont_iff] at hc
        refine ⟨?_, by omega, by simp, fun _ => by omega, by omega⟩
        have e1 : ¬ ((b0 - 0xF0) * 262144 + (b1 - 0x80) * 4096 + (b2 - 0x80) * 64 + (b3 - 0x80)
            < 0x80) := by omega
        have e2 : ¬ ((b0 - 0xF0) * 262144 + (b1 - 0x80) * 4096 + (b2 - 0x80) * 64 + (b3 - 0x80)
            < 0x800) := by omega
        have e3 : ¬ ((0xD800 ≤ (b0 - 0xF0) * 262144 + (b1 - 0x80) * 4096 + (b2 - 0x80) * 64
              + (b3 - 0x80) ∧
            (b0 - 0xF0) * 262144 + (b1 - 0x80) * 4096 + (b2 - 0x80) * 64 + (b3 - 0x80) ≤ 0xDFFF) ∨
            0x10FFFF < (b0 - 0xF0) * 262144 + (b1 - 0x80) * 4096 + (b2 - 0x80) * 64
              + (b3 - 0x80)) := by omega
        have e4 : ¬ ((b0 - 0xF0) * 262144 + (b1 - 0x80) * 4096 + (b2 - 0x80) * 64 + (b3 - 0x80)
            < 0x10000) := by omega
        simp only [encodeRune, e1, e2, e3, e4, if_true, if_false, List.take]
        congr 1
        · omega
        · congr 1
          · omega
          · congr 1
            · omega
            · congr 1
              omega

theorem decodeRune_take (l l' : GoString) (r size : Nat) (h : decodeRune l = some (r, size)) :
    decodeRune (l.take size ++ l') = some (r, size) := by
  cases l with
  | nil => simp [decodeRune] at h
  | cons b0 rest =>
    simp only [decodeRune] at h
    split_ifs at h with h1 h2 h3 h4
    · simp only [Option.some.injEq, Prod.mk.injEq] at h
      obtain ⟨rfl, rfl⟩ := h
      simp [decodeRune, h1]
    · cases rest with
      | nil => simp at h
      | cons b1 rest =>
        simp only at h
        split_ifs at h with hc
        simp only [Option.some.injEq, Prod.mk.injEq] at h
        obtain ⟨rfl, rfl⟩ := h
        simp [decodeRune, h1, h2, hc]
    · match rest, h with
      | [], h => simp at h
      | [_], h => simp at h
      | b1 :: b2 :: rest, h =>
        simp only at h
        split_ifs at h with hc
        simp only [Option.some.injEq, Prod.mk.injEq] at h
        obtain ⟨rfl, rfl⟩ := h
        have hc' := hc
        simp only [Bool.and_eq_true, Bool.or_eq_true, decide_eq_true_eq] at hc'
        simp [decodeRune, h1, h2, h3, hc']
    · match rest, h with
      | [], h => simp at h
      | [_], h => simp at h
      | [_, _], h => simp at h
      | b1 :: b2 :: b3 :: rest, h =>
        simp only at h
        split_ifs at h with hc
        simp only [Option.some.injEq, Prod.mk.injEq] at h
        obtain ⟨rfl, rfl⟩ := h
        have hc' := hc
        simp only [Bool.and_eq_true, Bool.or_eq_true, decide_eq_true_eq] at hc'
        simp [decodeRune, h1, h2, h3, h4, hc']

theorem validUTF8Aux_coerce (m : Nat) : ∀ s : GoString, validUTF8Aux m s = true →
    coerceUTF8Aux m s = s := by
  induction m with
  | zero =>
    intro s h
    cases s with
    | nil => rfl
    | cons b bs => simp [validUTF8Aux] at h
  | succ m ih =>
    intro s h
    cases s with
    | nil => rfl
    | cons b bs =>
      simp only [validUTF8Aux] at h
      simp only [coerceUTF8Aux]
      cases hd : decodeRune (b :: bs) with
      | none => rw [hd] at h; simp at h
      | some p =>
        obtain ⟨r, size⟩ := p
        rw [hd] at h
        simp only at h ⊢
        rw [ih _ h, List.take_append_drop]

theorem validUTF8_coerce (s : GoString) (h : validUTF8 s = true) : coerceUTF8 s = s :=
  validUTF8Aux_coerce s.length s h

theorem parseStringBody_quote (n : Nat) (rest : GoString) :
    parseStringBody (n + 1) (0x22 :: rest) = some ([], rest) := by
  simp [parseStringBody]

theorem parseStringBody_simple (n e b : Nat) (tail : GoString) (he : e ≠ 0x75)
    (hs : simpleEscape e = some b) :
    parseStringBody (n + 1) (0x5C :: e :: tail) = consOut [b] (parseStringBody n tail) := by
  simp [parseStringBody, he, hs]

theorem parseStringBody_u (n rr : Nat) (tail tail' : GoString)
    (hg : getu4 tail = some (rr, tail')) (hr : ¬ (0xD800 ≤ rr ∧ rr ≤ 0xDFFF)) :
    parseStringBody (n + 1) (0x5C :: 0x75 :: tail)
      = consOut (encodeRune rr) (parseStringBody n tail') := by
  simp [parseStringBody, hg, hr]

theorem parseStringBody_ascii (n c : Nat) (tail : GoString) (h1 : 0x20 ≤ c) (h2 : c < 0x80)
    (h3 : c ≠ 0x22) (h4 : c ≠ 0x5C) :
    parseStringBody (n + 1) (c :: tail) = consOut [c] (parseStringBody n tail) := by
  have h5 : ¬ c < 0x20 := by omega
  simp [parseStringBody, h3, h4, h5, h2]

theorem parseStringBody_multi (n c : Nat) (tail : GoString) (h1 : 0x80 ≤ c)
    (p : Nat × Nat) (hd : decodeRune (c :: tail) = some p) :
    parseStringBody (n + 1) (c :: tail)
      = consOut (encodeRune p.1) (parseStringBody n ((c :: tail).drop p.2)) := by
  have h2 : ¬ c < 0x80 := by omega
  have h3 : c ≠ 0x22 := by omega
  have h4 : c ≠ 0x5C := by omega
  have h5 : ¬ c < 0x20 := by omega
  simp [parseStringBody, h3, h4, h5, h2, hd]

theorem hexVal_hexDigit (x : Nat) (h : x < 16) : hexVal (hexDigit x) = some x := by
  unfold hexDigit hexVal
  by_cases h10 : x < 10
  · have h1 : 0x30 ≤ 0x30 + x ∧ 0x30 + x ≤ 0x39 := by omega
    simp [h10, h1]
  · have h1 : ¬ (0x30 ≤ 0x61 + (x - 10) ∧ 0x61 + (x - 10) ≤ 0x39) := by omega
    have h2 : 0x61 ≤ 0x61 + (x - 10) ∧ 0x61 + (x - 10) ≤ 0x66 := by omega
    have h3 : 0x61 + (x - 10) - 0x61 + 10 = x := by omega
    rw [if_neg h10, if_neg h1, if_pos h2, h3]

theorem consOut_some (out x rest : GoString) :
    consOut out (some (x, rest)) = some (out ++ x, rest) := rfl

theorem parseStringBody_escapeAux (m : Nat) : ∀ (s : GoString) (n : Nat) (rest : GoString),
    s.length ≤ m → (escapeAux m s).length < n →
    parseStringBody n (escapeAux m s ++ 0x22 :: rest) = some (coerceUTF8Aux m s, rest) := by
  induction m with
  | zero =>
    intro s n rest hs hn
    cases s with
    | nil =>
      obtain ⟨n', rfl⟩ : ∃ n', n = n' + 1 := ⟨n - 1, by omega⟩
      simp [escapeAux, coerceUTF8Aux, parseStringBody_quote]
    | cons b bs => simp at hs
  | succ m ih =>
    intro s n rest hs hn
    cases s with
    | nil =>
      obtain ⟨n', rfl⟩ : ∃ n', n = n' + 1 := ⟨n - 1, by omega⟩
      simp [escapeAux, coerceUTF8Aux, parseStringBody_quote]
    | cons b bs =>
      obtain ⟨n', rfl⟩ : ∃ n', n = n' + 1 := ⟨n - 1, by omega⟩
      have hbs : bs.length ≤ m := by simpa using hs
      by_cases hb : b < 0x80
      · have hd : decodeRune (b :: bs) = some (b, 1) := by simp [decodeRune, hb]
        have hco : coerceUTF8Aux (m + 1) (b :: bs) = b :: coerceUTF8Aux m bs := by
          simp [coerceUTF8Aux, hd]
        rw [hco]
        simp only [escapeAux, hb, if_true] at hn ⊢
        split_ifs at hn ⊢ with c1 c2 c3 c4 c5 c6 c7
        · have hq : simpleEscape b = some b := by
            rcases c1 with rfl | rfl <;> decide
          have h75 : b ≠ 0x75 := by rcases c1 with rfl | rfl <;> decide
          simp only [List.cons_append, List.length_cons] at hn ⊢
          rw [parseStringBody_simple n' b b _ h75 hq, ih bs n' rest hbs (by omega), consOut_some]
          rfl
        · subst c2
          simp only [List.cons_append, List.length_cons] at hn ⊢
          rw [parseStringBody_simple n' 0x62 0x08 _ (by decide) (by decide),
            ih bs n' rest hbs (by omega), consOut_some]
          rfl
        · subst c3
          simp only [List.cons_append, List.length_cons] at hn ⊢
          rw [parseStringBody_simple n' 0x66 0x0C _ (by decide) (by decide),
            ih bs n' rest hbs (by omega), consOut_some]
          rfl
        · subst c4
          simp only [List.cons_append, List.length_cons] at hn ⊢
          rw [parseStringBody_simple n' 0x6E 0x0A _ (by decide) (by decide),
            ih bs n' rest hbs (by omega), consOut_some]
          rfl
        · subst c5
          simp only [List.cons_append, List.length_cons] at hn ⊢
          rw [parseStringBody_simple n' 0x72 0x0D _ (by decide) (by decide),
            ih bs n' rest hbs (by omega), consOut_some]
          rfl
        · subst c6
          simp only [List.cons_append, List.length_cons] at hn ⊢
          rw [parseStringBody_simple n' 0x74 0x09 _ (by decide) (by decide),
            ih bs n' rest hbs (by omega), consOut_some]
          rfl
        · simp only [List.cons_append, List.length_cons] at hn ⊢
          have hg : getu4 (0x30 :: 0x30 :: hexDigit (b / 16) :: hexDigit (b % 16)
              :: (escapeAux m bs ++ 0x22 :: rest)) = some (b, escapeAux m bs ++ 0x22 :: rest) := by
            have h0 : hexVal 0x30 = some 0 := by decide
            simp only [getu4, h0, hexVal_hexDigit (b / 16) (by omega),
              hexVal_hexDigit (b % 16) (by omega)]
            congr 2
            omega
          rw [parseStringBody_u n' b _ _ hg (by omega), ih bs n' rest hbs (by omega),
            consOut_some]
          simp [encodeRune, hb]
        · have h20 : 0x20 ≤ b := by omega
          simp only [List.cons_append, List.length_cons] at hn ⊢
          rw [parseStringBody_ascii n' b _ h20 hb (fun h => c1 (Or.inl h))
            (fun h => c1 (Or.inr h)), ih bs n' rest hbs (by omega), consOut_some]
          rfl
      · have hb' : 0x80 ≤ b := by omega
        simp only [escapeAux, coerceUTF8Aux, hb, if_false] at hn ⊢
        cases hd : decodeRune (b :: bs) with
        | none =>
          rw [hd] at hn
          simp only at hn ⊢
          have ha : ascii "\\ufffd" = [0x5C, 0x75, 0x66, 0x66, 0x66, 0x64] := by decide
          rw [ha] at hn ⊢
          simp only [List.cons_append, List.nil_append, List.length_cons] at hn ⊢
          have hg : getu4 (0x66 :: 0x66 :: 0x66 :: 0x64 :: (escapeAux m bs ++ 0x22 :: rest))
              = some (0xFFFD, escapeAux m bs ++ 0x22 :: rest) := by
            have h6 : hexVal 0x66 = some 15 := by decide
            have h4 : hexVal 0x64 = some 13 := by decide
            simp [getu4, h6, h4]
          rw [parseStringBody_u n' 0xFFFD _ _ hg (by omega), ih bs n' rest hbs (by omega),
            consOut_some]
        | some p =>
          obtain ⟨c, size⟩ := p
          rw [hd] at hn
          simp only at hn ⊢
          obtain ⟨henc, hs1, hs2, hge, hsur⟩ := decodeRune_spec _ _ _ hd
          have hdrop : ((b :: bs).drop size).length ≤ m := by
            simp only [List.length_drop, List.length_cons] at hs ⊢
            omega
          split_ifs at hn ⊢ with c1
          · have ha : ascii "\\u202" = [0x5C, 0x75, 0x32, 0x30, 0x32] := by decide
            rw [ha] at hn ⊢
            simp only [List.cons_append, List.nil_append, List.length_cons] at hn ⊢
            have hg : getu4 (0x32 :: 0x30 :: 0x32 :: hexDigit (c % 16)
                :: (escapeAux m ((b :: bs).drop size) ++ 0x22 :: rest))
                = some (c, escapeAux m ((b :: bs).drop size) ++ 0x22 :: rest) := by
              have h2 : hexVal 0x32 = some 2 := by decide
              have h0 : hexVal 0x30 = some 0 := by decide
              simp only [getu4, h2, h0, hexVal_hexDigit (c % 16) (by omega)]
              congr 2
              omega
            rw [parseStringBody_u n' c _ _ hg hsur, ih _ n' rest hdrop (by omega), consOut_some,
              henc]
          · obtain ⟨k, rfl⟩ : ∃ k, size = k + 1 := ⟨size - 1, by omega⟩
            have hdt := decodeRune_take (b :: bs)
              (escapeAux m ((b :: bs).drop (k + 1)) ++ 0x22 :: rest) c (k + 1) hd
            simp only [List.take_succ_cons, List.cons_append, List.append_assoc] at hdt hn ⊢
            rw [parseStringBody_multi n' b _ hb' (c, k + 1) hdt]
            simp only [List.drop_succ_cons]
            have hlen : (bs.take k).length = k := by
              simp only [List.length_take, List.length_cons] at hs2 ⊢
              omega
            rw [List.drop_left' hlen]
            simp only [List.length_cons, List.length_append] at hn
            rw [ih _ n' rest (by simpa using hdrop) (by simp only [List.drop_succ_cons] at hn ⊢; omega),
              consOut_some, henc]
            simp

theorem parseStringBody_encodeString (s rest : GoString) (n : Nat)
    (hn : (escapeAux s.length s).length < n) :
    parseStringBody n (escapeAux s.length s ++ 0x22 :: rest) = some (coerceUTF8 s, rest) :=
  parseStringBody_escapeAux s.length s n rest (le_refl _) hn

/-! ## One step of the value parser -/

theorem parseValue_str (n d : Nat) (body : GoString) :
    parseValue (n + 1) d (0x22 :: body)
      = (parseStringBody (body.length + 1) body).map (fun p => (Json.str p.1, p.2)) := by
  simp [parseValue, skipSpace, isSpace]

theorem parseValue_null (n d : Nat) (rest : GoString) :
    parseValue (n + 1) d (0x6E :: 0x75 :: 0x6C :: 0x6C :: rest) = some (Json.null, rest) := by
  simp [parseValue, skipSpace, isSpace]

theorem parseValue_true (n d : Nat) (rest : GoString) :
    parseValue (n + 1) d (0x74 :: 0x72 :: 0x75 :: 0x65 :: rest) = some (Json.bool true, rest) := by
  simp [parseValue, skipSpace, isSpace]

theorem parseValue_false (n d : Nat) (rest : GoString) :
    parseValue (n + 1) d (0x66 :: 0x61 :: 0x6C :: 0x73 :: 0x65 :: rest)
      = some (Json.bool false, rest) := by
  simp [parseValue, skipSpace, isSpace]

theorem parseValue_arr_nil (n d : Nat) (rest : GoString) (hd : d < maxNestingDepth) :
    parseValue (n + 1) d (0x5B :: 0x5D :: rest) = some (Json.arr [], rest) := by
  have hd' : ¬ maxNestingDepth ≤ d := by omega
  simp [parseValue, skipSpace, isSpace, hd']

theorem parseValue_arr_cons (n d c : Nat) (tail : GoString) (hd : d < maxNestingDepth)
    (hc : isSpace c = false) (hc' : c ≠ 0x5D) :
    parseValue (n + 1) d (0x5B :: c :: tail)
      = (parseElems n (d + 1) (c :: tail)).map (fun p => (Json.arr p.1, p.2)) := by
  have hd' : ¬ maxNestingDepth ≤ d := by omega
  have hs : skipSpace (c :: tail) = c :: tail := by simp [skipSpace, hc]
  simp only [parseValue, skipSpace, isSpace]
  simp [hd', hs, hc', skipSpace, hc]

theorem parseValue_obj_nil (n d : Nat) (rest : GoString) (hd : d < maxNestingDepth) :
    parseValue (n + 1) d (0x7B :: 0x7D :: rest) = some (Json.obj [], rest) := by
  have hd' : ¬ maxNestingDepth ≤ d := by omega
  simp [parseValue, skipSpace, isSpace, hd']

theorem parseValue_obj_cons (n d : Nat) (tail : GoString) (hd : d < maxNestingDepth) :
    parseValue (n + 1) d (0x7B :: 0x22 :: tail)
      = (parseMembers n (d + 1) (0x22 :: tail)).map (fun p => (Json.obj p.1, p.2)) := by
  have hd' : ¬ maxNestingDepth ≤ d := by omega
  simp only [parseValue, skipSpace, isSpace]
  simp [hd', skipSpace, isSpace]

theorem parseElems_last (n d : Nat) (input rest : GoString) (v : Json)
    (h : parseValue n d input = some (v, 0x5D :: rest)) :
    parseElems (n + 1) d input = some ([v], rest) := by
  simp [parseElems, h, skipSpace, isSpace]

theorem parseElems_more (n d : Nat) (input rest : GoString) (v : Json)
    (h : parseValue n d input = some (v, 0x2C :: rest)) :
    parseElems (n + 1) d input = (parseElems n d rest).map (fun p => (v :: p.1, p.2)) := by
  simp [parseElems, h, skipSpace, isSpace]

theorem parseMembers_last (n d : Nat) (body rest2 rest : GoString) (k : GoString) (v : Json)
    (hk : parseStringBody (body.length + 1) body = some (k, 0x3A :: rest2))
    (hv : parseValue n d rest2 = some (v, 0x7D :: rest)) :
    parseMembers (n + 1) d (0x22 :: body) = some ([(k, v)], rest) := by
  simp [parseMembers, hk, hv, skipSpace, isSpace]

theorem parseMembers_more (n d : Nat) (body rest2 rest : GoString) (k : GoString) (v : Json)
    (hk : parseStringBody (body.length + 1) body = some (k, 0x3A :: rest2))
    (hv : parseValue n d rest2 = some (v, 0x2C :: rest)) :
    parseMembers (n + 1) d (0x22 :: body)
      = (parseMembers n d rest).map (fun p => ((k, v) :: p.1, p.2)) := by
  simp [parseMembers, hk, hv, skipSpace, isSpace]

/-! ## Parsing what `render` wrote -/

theorem render_head (fmt : Bool → Nat → Int → GoString) (t : Json) (h : numFree t = true) :
    ∃ c tail, render fmt t = c :: tail ∧ isSpace c = false ∧ c ≠ 0x5D := by
  cases t with
  | null => exact ⟨0x6E, [0x75, 0x6C, 0x6C], by simp [render]; decide, by decide, by decide⟩
  | bool b =>
    cases b
    · exact ⟨0x66, [0x61, 0x6C, 0x73, 0x65], by simp [render]; decide, by decide, by decide⟩
    · exact ⟨0x74, [0x72, 0x75, 0x65], by simp [render]; decide, by decide, by decide⟩
  | num neg mant exp => simp [numFree] at h
  | str s =>
    exact ⟨0x22, escapeAux s.length s ++ [0x22], by simp [render, encodeString], by decide,
      by decide⟩
  | arr xs => exact ⟨0x5B, renderElems fmt xs ++ [0x5D], by simp [render], by decide, by decide⟩
  | obj kvs =>
    exact ⟨0x7B, renderMembers fmt kvs ++ [0x7D], by simp [render], by decide, by decide⟩

theorem renderElems_cons (fmt : Bool → Nat → Int → GoString) (x : Json) (xs : List Json) :
    ∃ tail, renderElems fmt (x :: xs) = render fmt x ++ tail := by
  cases xs with
  | nil => exact ⟨[], by simp [renderElems]⟩
  | cons y ys => exact ⟨0x2C :: renderElems fmt (y :: ys), by simp [renderElems]⟩

mutual
theorem parseValue_render (fmt : Bool → Nat → Int → GoString) :
    ∀ (t : Json) (n d : Nat) (rest : GoString),
    numFree t = true → d + height t ≤ maxNestingDepth → (render fmt t).length ≤ n →
    parseValue n d (render fmt t ++ rest) = some (coerceJson t, rest)
  | .null, n, d, rest, _, _, hn => by
    have hr : render fmt .null = [0x6E, 0x75, 0x6C, 0x6C] := by simp [render]; decide
    rw [hr] at hn ⊢
    obtain ⟨n', rfl⟩ : ∃ n', n = n' + 1 := ⟨n - 1, by simp at hn; omega⟩
    simp [parseValue_null, coerceJson]
  | .bool true, n, d, rest, _, _, hn => by
    have hr : render fmt (.bool true) = [0x74, 0x72, 0x75, 0x65] := by simp [render]; decide
    rw [hr] at hn ⊢
    obtain ⟨n', rfl⟩ : ∃ n', n = n' + 1 := ⟨n - 1, by simp at hn; omega⟩
    simp [parseValue_true, coerceJson]
  | .bool false, n, d, rest, _, _, hn => by
    have hr : render fmt (.bool false) = [0x66, 0x61, 0x6C, 0x73, 0x65] := by simp [render]; decide
    rw [hr] at hn ⊢
    obtain ⟨n', rfl⟩ : ∃ n', n = n' + 1 := ⟨n - 1, by simp at hn; omega⟩
    simp [parseValue_false, coerceJson]
  | .num _ _ _, _, _, _, hf, _, _ => by simp [numFree] at hf
  | .str s, n, d, rest, _, _, hn => by
    have hr : render fmt (.str s) ++ rest
        = 0x22 :: (escapeAux s.length s ++ 0x22 :: rest) := by
      simp [render, encodeString]
    have hl : (render fmt (.str s)).length = (escapeAux s.length s).length + 2 := by
      simp [render, encodeString]
    rw [hr]
    obtain ⟨n', rfl⟩ : ∃ n', n = n' + 1 := ⟨n - 1, by omega⟩
    rw [parseValue_str, parseStringBody_encodeString s rest _ (by simp; omega)]
    simp [coerceJson]
  | .arr [], n, d, rest, _, hh, hn => by
    have hr : render fmt (.arr []) = [0x5B, 0x5D] := by simp [render, renderElems]
    rw [hr] at hn ⊢
    obtain ⟨n', rfl⟩ : ∃ n', n = n' + 1 := ⟨n - 1, by simp at hn; omega⟩
    have hd : d < maxNestingDepth := by simp [height] at hh; omega
    simp [parseValue_arr_nil _ _ _ hd, coerceJson, coerceElems]
  | .arr (x :: xs), n, d, rest, hf, hh, hn => by
    have hfx : numFree x = true := by
      simp [numFree, numFreeElems] at hf; exact hf.1
    have hfe : numFreeElems (x :: xs) = true := by simpa [numFree] using hf
    have hr : render fmt (.arr (x :: xs)) ++ rest
        = 0x5B :: (renderElems fmt (x :: xs) ++ 0x5D :: rest) := by
      simp [render]
    have hl : (render fmt (.arr (x :: xs))).length
        = (renderElems fmt (x :: xs)).length + 2 := by
      simp [render]
    obtain ⟨c, tail, hc, hsp, hne⟩ := render_head fmt x hfx
    obtain ⟨tail2, ht2⟩ := renderElems_cons fmt x xs
    have hd : d < maxNestingDepth := by simp [height] at hh; omega
    obtain ⟨n', rfl⟩ : ∃ n', n = n' + 1 := ⟨n - 1, by omega⟩
    have hhead : renderElems fmt (x :: xs) ++ 0x5D :: rest
        = c :: (tail ++ tail2 ++ 0x5D :: rest) := by
      rw [ht2, hc]; simp
    rw [hr, hhead, parseValue_arr_cons n' d c _ hd hsp hne, ← hhead,
      parseElems_render fmt x xs n' (d + 1) rest hfe (by simp [height] at hh; omega) (by omega)]
    simp [coerceJson]
  | .obj [], n, d, rest, _, hh, hn => by
    have hr : render fmt (.obj []) = [0x7B, 0x7D] := by simp [render, renderMembers]
    rw [hr] at hn ⊢
    obtain ⟨n', rfl⟩ : ∃ n', n = n' + 1 := ⟨n - 1, by simp at hn; omega⟩
    have hd : d < maxNestingDepth := by simp [height] at hh; omega
    simp [parseValue_obj_nil _ _ _ hd, coerceJson, coerceMembers]
  | .obj ((k, v) :: kvs), n, d, rest, hf, hh, hn => by
    have hfe : numFreeMembers ((k, v) :: kvs) = true := by simpa [numFree] using hf
    have hr : render fmt (.obj ((k, v) :: kvs)) ++ rest
        = 0x7B :: (renderMembers fmt ((k, v) :: kvs) ++ 0x7D :: rest) := by
      simp [render]
    have hl : (render fmt (.obj ((k, v) :: kvs))).length
        = (renderMembers fmt ((k, v) :: kvs)).length + 2 := by
      simp [render]
    have hhead : ∃ tail, renderMembers fmt ((k, v) :: kvs) ++ 0x7D :: rest = 0x22 :: tail := by
      cases kvs with
      | nil =>
        exact ⟨escapeAux k.length k ++ 0x22 :: 0x3A :: (render fmt v ++ 0x7D :: rest),
          by simp [renderMembers, encodeString]⟩
      | cons y ys =>
        exact ⟨escapeAux k.length k ++ 0x22 :: 0x3A :: (render fmt v ++ 0x2C ::
          (renderMembers fmt (y :: ys) ++ 0x7D :: rest)), by simp [renderMembers, encodeString]⟩
    obtain ⟨tail, ht⟩ := hhead
    have hd : d < maxNestingDepth := by simp [height] at hh; omega
    obtain ⟨n', rfl⟩ : ∃ n', n = n' + 1 := ⟨n - 1, by omega⟩
    rw [hr, ht, parseValue_obj_cons n' d _ hd, ← ht,
      parseMembers_render fmt k v kvs n' (d + 1) rest hfe (by simp [height] at hh; omega) (by omega)]
    simp [coerceJson]
termination_by t => sizeOf t
theorem parseElems_render (fmt : Bool → Nat → Int → GoString) :
    ∀ (x : Json) (xs : List Json) (n d : Nat) (rest : GoString),
    numFreeElems (x :: xs) = true → d + heightElems (x :: xs) ≤ maxNestingDepth →
    (renderElems fmt (x :: xs)).length + 1 ≤ n →
    parseElems n d (renderElems fmt (x :: xs) ++ 0x5D :: rest)
      = some (coerceElems (x :: xs), rest)
  | x, [], n, d, rest, hf, hh, hn => by
    have hfx : numFree x = true := by simp [numFreeElems] at hf; exact hf
    have hr : renderElems fmt [x] = render fmt x := by simp [renderElems]
    rw [hr] at hn ⊢
    obtain ⟨n', rfl⟩ : ∃ n', n = n' + 1 := ⟨n - 1, by omega⟩
    have hv := parseValue_render fmt x n' d (0x5D :: rest) hfx
      (by simp [heightElems] at hh; omega) (by omega)
    rw [parseElems_last n' d _ rest _ hv]
    simp [coerceElems]
  | x, y :: ys, n, d, rest, hf, hh, hn => by
    have hfx : numFree x = true := by simp [numFreeElems] at hf; exact hf.1
    have hfy : numFreeElems (y :: ys) = true := by
      simp [numFreeElems] at hf ⊢; exact hf.2
    have hr : renderElems fmt (x :: y :: ys) ++ 0x5D :: rest
        = render fmt x ++ 0x2C :: (renderElems fmt (y :: ys) ++ 0x5D :: rest) := by
      simp [renderElems]
    have hl : (renderElems fmt (x :: y :: ys)).length
        = (render fmt x).length + 1 + (renderElems fmt (y :: ys)).length := by
      simp [renderElems]; omega
    obtain ⟨n', rfl⟩ : ∃ n', n = n' + 1 := ⟨n - 1, by omega⟩
    have hv := parseValue_render fmt x n' d (0x2C :: (renderElems fmt (y :: ys) ++ 0x5D :: rest))
      hfx (by simp [heightElems] at hh; omega) (by omega)
    rw [hr, parseElems_more n' d _ _ _ hv,
      parseElems_render fmt y ys n' d rest hfy (by simp [heightElems] at hh ⊢; omega) (by omega)]
    simp [coerceElems]
termination_by x xs => sizeOf (x :: xs)
theorem parseMembers_render (fmt : Bool → Nat → Int → GoString) :
    ∀ (k : GoString) (v : Json) (kvs : List (GoString × Json)) (n d : Nat) (rest : GoString),
    numFreeMembers ((k, v) :: kvs) = true → d + heightMembers ((k, v) :: kvs) ≤ maxNestingDepth →
    (renderMembers fmt ((k, v) :: kvs)).length + 1 ≤ n →
    parseMembers n d (renderMembers fmt ((k, v) :: kvs) ++ 0x7D :: rest)
      = some (coerceMembers ((k, v) :: kvs), rest)
  | k, v, [], n, d, rest, hf, hh, hn => by
    have hfx : numFree v = true := by simp [numFreeMembers] at hf; exact hf
    have hr : renderMembers fmt [(k, v)] ++ 0x7D :: rest
        = 0x22 :: (escapeAux k.length k ++ 0x22 :: 0x3A :: (render fmt v ++ 0x7D :: rest)) := by
      simp [renderMembers, encodeString]
    have hl : (renderMembers fmt [(k, v)]).length
        = (escapeAux k.length k).length + 3 + (render fmt v).length := by
      simp [renderMembers, encodeString]; omega
    obtain ⟨n', rfl⟩ : ∃ n', n = n' + 1 := ⟨n - 1, by omega⟩
    have hk := parseStringBody_encodeString k (0x3A :: (render fmt v ++ 0x7D :: rest))
      ((escapeAux k.length k ++ 0x22 :: 0x3A :: (render fmt v ++ 0x7D :: rest)).length + 1)
      (by simp; omega)
    have hv := parseValue_render fmt v n' d (0x7D :: rest) hfx
      (by simp [heightMembers] at hh; omega) (by omega)
    rw [hr, parseMembers_last n' d _ _ rest _ _ hk hv]
    simp [coerceMembers]
  | k, v, (k2, v2) :: ys, n, d, rest, hf, hh, hn => by
    have hfx : numFree v = true := by simp [numFreeMembers] at hf; exact hf.1
    have hfy : numFreeMembers ((k2, v2) :: ys) = true := by
      simp [numFreeMembers] at hf ⊢; exact hf.2
    have hr : renderMembers fmt ((k, v) :: (k2, v2) :: ys) ++ 0x7D :: rest
        = 0x22 :: (escapeAux k.length k ++ 0x22 :: 0x3A :: (render fmt v ++ 0x2C ::
            (renderMembers fmt ((k2, v2) :: ys) ++ 0x7D :: rest))) := by
      simp [renderMembers, encodeString]
    have hl : (renderMembers fmt ((k, v) :: (k2, v2) :: ys)).length
        = (escapeAux k.length k).length + 3 + (render fmt v).length + 1
          + (renderMembers fmt ((k2, v2) :: ys)).length := by
      simp [renderMembers, encodeString]; omega
    obtain ⟨n', rfl⟩ : ∃ n', n = n' + 1 := ⟨n - 1, by omega⟩
    have hk := parseStringBody_encodeString k (0x3A :: (render fmt v ++ 0x2C ::
        (renderMembers fmt ((k2, v2) :: ys) ++ 0x7D :: rest)))
      ((escapeAux k.length k ++ 0x22 :: 0x3A :: (render fmt v ++ 0x2C ::
        (renderMembers fmt ((k2, v2) :: ys) ++ 0x7D :: rest))).length + 1)
      (by simp; omega)
    have hv := parseValue_render fmt v n' d
      (0x2C :: (renderMembers fmt ((k2, v2) :: ys) ++ 0x7D :: rest)) hfx
      (by simp [heightMembers] at hh; omega) (by omega)
    rw [hr, parseMembers_more n' d _ _ _ _ _ hk hv,
      parseMembers_render fmt k2 v2 ys n' d rest hfy (by simp [heightMembers] at hh ⊢; omega)
        (by omega)]
    simp [coerceMembers]
termination_by k v kvs => sizeOf ((k, v) :: kvs)
end

theorem parseJson_render (fmt : Bool → Nat → Int → GoString) (t : Json)
    (hf : numFree t = true) (hh : height t ≤ maxNestingDepth) :
    parseJson (render fmt t) = some (coerceJson t) := by
  have h := parseValue_render fmt t (2 * (render fmt t).length + 2) 0 [] hf (by omega) (by omega)
  rw [List.append_nil] at h
  simp [parseJson, h, skipSpace]

/-! ## The documents of the messages -/

/-! ### Lists of strings and of articles -/

theorem coerceElems_strs (xs : List GoString) :
    coerceElems (xs.map Json.str) = (xs.map coerceUTF8).map Json.str := by
  induction xs with
  | nil => simp [coerceElems]
  | cons x xs ih => simp [coerceElems, coerceJson, ih]

theorem map_coerce_valid (xs : List GoString) (h : xs.all validUTF8 = true) :
    xs.map coerceUTF8 = xs := by
  induction xs with
  | nil => rfl
  | cons x xs ih =>
    simp only [List.all_cons, Bool.and_eq_true] at h
    simp [validUTF8_coerce x h.1, ih h.2]

theorem numFreeElems_strs (xs : List GoString) : numFreeElems (xs.map Json.str) = true := by
  induction xs with
  | nil => simp [numFreeElems]
  | cons x xs ih => simp [numFreeElems, numFree, ih]

theorem heightElems_strs (xs : List GoString) : heightElems (xs.map Json.str) = 0 := by
  induction xs with
  | nil => simp [heightElems]
  | cons x xs ih => simp [heightElems, height, ih]

theorem toGoElems_strs (xs : List GoString) : toGoElems (xs.map Json.str) = xs.map Json.str := by
  induction xs with
  | nil => simp [toGoElems]
  | cons x xs ih => simp [toGoElems, toGo, ih]

theorem hasRangeErrorElems_strs (xs : List GoString) :
    hasRangeErrorElems (xs.map Json.str) = false := by
  induction xs with
  | nil => simp [hasRangeErrorElems]
  | cons x xs ih => simp [hasRangeErrorElems, hasRangeError, ih]

theorem coerceJson_stringsToJson (ml : Option (List GoString)) :
    coerceJson (stringsToJson ml) = stringsToJson (ml.map (List.map coerceUTF8)) := by
  cases ml with
  | none => simp [stringsToJson, coerceJson]
  | some xs => simp [stringsToJson, coerceJson, coerceElems_strs]

theorem coerceJson_stringsToJson_valid (ml : Option (List GoString))
    (h : validStrings ml = true) : coerceJson (stringsToJson ml) = stringsToJson ml := by
  cases ml with
  | none => simp [stringsToJson, coerceJson]
  | some xs =>
    simp only [validStrings] at h
    simp [stringsToJson, coerceJson, coerceElems_strs, map_coerce_valid xs h]

theorem numFree_stringsToJson (ml : Option (List GoString)) :
    numFree (stringsToJson ml) = true := by
  cases ml with
  | none => simp [stringsToJson, numFree]
  | some xs => simp [stringsToJson, numFree, numFreeElems_strs]

theorem height_stringsToJson (ml : Option (List GoString)) : height (stringsToJson ml) ≤ 1 := by
  cases ml with
  | none => simp [stringsToJson, height]
  | some xs => simp [stringsToJson, height, heightElems_strs]

theorem toGo_stringsToJson (ml : Option (List GoString)) :
    toGo (stringsToJson ml) = stringsToJson ml := by
  cases ml with
  | none => simp [stringsToJson, toGo]
  | some xs => simp [stringsToJson, toGo, toGoElems_strs]

theorem hasRangeError_stringsToJson (ml : Option (List GoString)) :
    hasRangeError (stringsToJson ml) = false := by
  cases ml with
  | none => simp [stringsToJson, hasRangeError]
  | some xs => simp [stringsToJson, hasRangeError, hasRangeErrorElems_strs]

/-! ### Objects with the keys of the message structs -/

theorem toGoMembers_one (k : GoString) (a : Json) : toGoMembers [(k, a)] = [(k, toGo a)] := rfl

theorem toGoMembers_msgtype_text (a b : Json) :
    toGoMembers [(ascii "msgtype", a), (ascii "text", b)]
      = [(ascii "msgtype", toGo a), (ascii "text", toGo b)] := rfl

theorem toGoMembers_msgtype_markdown (a b : Json) :
    toGoMembers [(ascii "msgtype", a), (ascii "markdown", b)]
      = [(ascii "markdown", toGo b), (ascii "msgtype", toGo a)] := rfl

theorem toGoMembers_msgtype_image (a b : Json) :
    toGoMembers [(ascii "msgtype", a), (ascii "image", b)]
      = [(ascii "image", toGo b), (ascii "msgtype", toGo a)] := rfl

theorem toGoMembers_msgtype_news (a b : Json) :
    toGoMembers [(ascii "msgtype", a), (ascii "news", b)]
      = [(ascii "msgtype", toGo a), (ascii "news", toGo b)] := rfl

theorem toGoMembers_msgtype_file (a b : Json) :
    toGoMembers [(ascii "msgtype", a), (ascii "file", b)]
      = [(ascii "file", toGo b), (ascii "msgtype", toGo a)] := rfl

theorem toGoMembers_text (a b c : Json) :
    toGoMembers [(ascii "content", a), (ascii "mentioned_list", b),
        (ascii "mentioned_mobile_list", c)]
      = [(ascii "content", toGo a), (ascii "mentioned_list", toGo b),
        (ascii "mentioned_mobile_list", toGo c)] := rfl

theorem toGoMembers_image (a b : Json) :
    toGoMembers [(ascii "base64", a), (ascii "md5", b)]
      = [(ascii "base64", toGo a), (ascii "md5", toGo b)] := rfl

theorem toGoMembers_article (t d u p : Json) :
    toGoMembers [(ascii "title", t), (ascii "description", d), (ascii "url", u),
        (ascii "picurl", p)]
      = [(ascii "description", toGo d), (ascii "picurl", toGo p), (ascii "title", toGo t),
        (ascii "url", toGo u)] := rfl

theorem toGoMembers_article_sorted (t d u p : Json) :
    toGoMembers [(ascii "description", d), (ascii "picurl", p), (ascii "title", t),
        (ascii "url", u)]
      = [(ascii "description", toGo d), (ascii "picurl", toGo p), (ascii "title", toGo t),
        (ascii "url", toGo u)] := rfl

theorem toGoMembers_markdown_sorted (a b : Json) :
    toGoMembers [(ascii "markdown", b), (ascii "msgtype", a)]
      = [(ascii "markdown", toGo b), (ascii "msgtype", toGo a)] := rfl

theorem toGoMembers_image_sorted (a b : Json) :
    toGoMembers [(ascii "image", b), (ascii "msgtype", a)]
      = [(ascii "image", toGo b), (ascii "msgtype", toGo a)] := rfl

theorem toGoMembers_file_sorted (a b : Json) :
    toGoMembers [(ascii "file", b), (ascii "msgtype", a)]
      = [(ascii "file", toGo b), (ascii "msgtype", toGo a)] := rfl

theorem coerceUTF8_keys :
    coerceUTF8 (ascii "msgtype") = ascii "msgtype" ∧ coerceUTF8 (ascii "text") = ascii "text" ∧
    coerceUTF8 (ascii "markdown") = ascii "markdown" ∧ coerceUTF8 (ascii "image") = ascii "image" ∧
    coerceUTF8 (ascii "news") = ascii "news" ∧ coerceUTF8 (ascii "file") = ascii "file" ∧
    coerceUTF8 (ascii "content") = ascii "content" ∧
    coerceUTF8 (ascii "mentioned_list") = ascii "mentioned_list" ∧
    coerceUTF8 (ascii "mentioned_mobile_list") = ascii "mentioned_mobile_list" ∧
    coerceUTF8 (ascii "base64") = ascii "base64" ∧ coerceUTF8 (ascii "md5") = ascii "md5" ∧
    coerceUTF8 (ascii "articles") = ascii "articles" ∧ coerceUTF8 (ascii "title") = ascii "title" ∧
    coerceUTF8 (ascii "description") = ascii "description" ∧
    coerceUTF8 (ascii "url") = ascii "url" ∧ coerceUTF8 (ascii "picurl") = ascii "picurl" ∧
    coerceUTF8 (ascii "media_id") = ascii "media_id" := by
  decide

/-! ### Articles -/

theorem coerceJson_article (a : Articles) :
    coerceJson a.toJson
      = .obj [(ascii "title", .str (coerceUTF8 a.Title)),
          (ascii "description", .str (coerceUTF8 a.Description)),
          (ascii "url", .str (coerceUTF8 a.Url)), (ascii "picurl", .str (coerceUTF8 a.PicUrl))] := by
  obtain ⟨_, _, _, _, _, _, _, _, _, _, _, _, ht, hd, hu, hp, _⟩ := coerceUTF8_keys
  simp [Articles.toJson, coerceJson, coerceMembers, ht, hd, hu, hp]

theorem coerceJson_article_valid (a : Articles) (h : a.valid = true) :
    coerceJson a.toJson = a.toJson := by
  simp only [Articles.valid, Bool.and_eq_true] at h
  obtain ⟨⟨⟨h1, h2⟩, h3⟩, h4⟩ := h
  rw [coerceJson_article, validUTF8_coerce _ h1, validUTF8_coerce _ h2, validUTF8_coerce _ h3,
    validUTF8_coerce _ h4]
  rfl

theorem coerceJson_articleGeneric_valid (a : Articles) (h : a.valid = true) :
    coerceJson a.generic = a.generic := by
  simp only [Articles.valid, Bool.and_eq_true] at h
  obtain ⟨⟨⟨h1, h2⟩, h3⟩, h4⟩ := h
  obtain ⟨_, _, _, _, _, _, _, _, _, _, _, _, ht, hd, hu, hp, _⟩ := coerceUTF8_keys
  simp [Articles.generic, coerceJson, coerceMembers, ht, hd, hu, hp, validUTF8_coerce _ h1,
    validUTF8_coerce _ h2, validUTF8_coerce _ h3, validUTF8_coerce _ h4]

theorem toGo_article (a : Articles) : toGo a.toJson = a.generic := by
  simp [Articles.toJson, Articles.generic, toGo, toGoMembers_article]

theorem toGo_articleGeneric (a : Articles) : toGo a.generic = a.generic := by
  simp [Articles.generic, toGo, toGoMembers_article_sorted]

theorem coerceElems_articles (as : List Articles) :
    coerceElems (as.map Articles.toJson) = as.map (fun a => coerceJson a.toJson) := by
  induction as with
  | nil => simp [coerceElems]
  | cons a as ih => simp [coerceElems, ih]

theorem coerceElems_articles_valid (as : List Articles) (h : as.all Articles.valid = true) :
    coerceElems (as.map Articles.toJson) = as.map Articles.toJson := by
  induction as with
  | nil => simp [coerceElems]
  | cons a as ih =>
    simp only [List.all_cons, Bool.and_eq_true] at h
    simp [coerceElems, coerceJson_article_valid a h.1, ih h.2]

theorem coerceElems_articlesGeneric_valid (as : List Articles)
    (h : as.all Articles.valid = true) :
    coerceElems (as.map Articles.generic) = as.map Articles.generic := by
  induction as with
  | nil => simp [coerceElems]
  | cons a as ih =>
    simp only [List.all_cons, Bool.and_eq_true] at h
    simp [coerceElems, coerceJson_articleGeneric_valid a h.1, ih h.2]

theorem toGoElems_articles (as : List Articles) :
    toGoElems (as.map Articles.toJson) = as.map Articles.generic := by
  induction as with
  | nil => simp [toGoElems]
  | cons a as ih => simp [toGoElems, toGo_article, ih]

theorem toGoElems_articlesGeneric (as : List Articles) :
    toGoElems (as.map Articles.generic) = as.map Articles.generic := by
  induction as with
  | nil => simp [toGoElems]
  | cons a as ih => simp [toGoElems, toGo_articleGeneric, ih]

theorem numFreeElems_articles (as : List Articles) :
    numFreeElems (as.map Articles.toJson) = true ∧
      numFreeElems (as.map Articles.generic) = true := by
  induction as with
  | nil => simp [numFreeElems]
  | cons a as ih =>
    simp [numFreeElems, numFree, numFreeMembers, Articles.toJson, Articles.generic, ih.1, ih.2]

theorem heightElems_articles (as : List Articles) :
    heightElems (as.map Articles.toJson) ≤ 1 ∧ heightElems (as.map Articles.generic) ≤ 1 := by
  induction as with
  | nil => simp [heightElems]
  | cons a as ih =>
    simp [heightElems, height, heightMembers, Articles.toJson, Articles.generic, ih.1, ih.2]

theorem hasRangeErrorElems_articles (as : List Articles) :
    hasRangeErrorElems (as.map Articles.toJson) = false ∧
      hasRangeErrorElems (as.map Articles.generic) = false := by
  induction as with
  | nil => simp [hasRangeErrorElems]
  | cons a as ih =>
    simp [hasRangeErrorElems, hasRangeError, hasRangeErrorMembers, Articles.toJson,
      Articles.generic, ih.1, ih.2]

/-! ### Messages -/

theorem numFree_toJson (msg : Message) :
    numFree msg.toJson = true ∧ numFree msg.generic = true := by
  cases msg with
  | news m =>
    cases h : m.News.Articles <;>
      simp [Message.toJson, Message.generic, news.toJson, articlesToJson, articlesGeneric, h,
        numFree, numFreeMembers, numFreeElems_articles]
  | _ =>
    simp [Message.toJson, Message.generic, text.toJson, markdown.toJson, image.toJson,
      file.toJson, numFree, numFreeMembers, numFree_stringsToJson]

theorem height_toJson (msg : Message) :
    height msg.toJson ≤ maxNestingDepth ∧ height msg.generic ≤ maxNestingDepth := by
  have h1 := fun ml => height_stringsToJson ml
  cases msg with
  | text m =>
    have ha := h1 m.Text.MentionedList
    have hb := h1 m.Text.MentionedMobileList
    simp only [Message.toJson, Message.generic, text.toJson, height, heightMembers,
      maxNestingDepth]
    omega
  | news m =>
    cases h : m.News.Articles with
    | none =>
      simp [Message.toJson, Message.generic, news.toJson, articlesToJson, articlesGeneric, h,
        height, heightMembers, maxNestingDepth]
    | some as =>
      have ha := heightElems_articles as
      simp only [Message.toJson, Message.generic, news.toJson, articlesToJson, articlesGeneric,
        h, height, heightMembers, maxNestingDepth]
      omega
  | _ =>
    simp [Message.toJson, Message.generic, markdown.toJson, image.toJson, file.toJson, height,
      heightMembers, maxNestingDepth]

theorem coerceJson_toJson_valid (msg : Message) (h : msg.valid = true) :
    coerceJson msg.toJson = msg.toJson ∧ coerceJson msg.generic = msg.generic := by
  obtain ⟨k1, k2, k3, k4, k5, k6, k7, k8, k9, k10, k11, k12, _, _, _, _, k17⟩ := coerceUTF8_keys
  cases msg with
  | text m =>
    simp only [Message.valid, Bool.and_eq_true] at h
    obtain ⟨⟨⟨h1, h2⟩, h3⟩, h4⟩ := h
    simp [Message.toJson, Message.generic, text.toJson, coerceJson, coerceMembers, k1, k2, k7, k8,
      k9, validUTF8_coerce _ h1, validUTF8_coerce _ h2, coerceJson_stringsToJson_valid _ h3,
      coerceJson_stringsToJson_valid _ h4]
  | markdown m =>
    simp only [Message.valid, Bool.and_eq_true] at h
    obtain ⟨h1, h2⟩ := h
    simp [Message.toJson, Message.generic, markdown.toJson, coerceJson, coerceMembers, k1, k3, k7,
      validUTF8_coerce _ h1, validUTF8_coerce _ h2]
  | image m =>
    simp only [Message.valid, Bool.and_eq_true] at h
    obtain ⟨⟨h1, h2⟩, h3⟩ := h
    simp [Message.toJson, Message.generic, image.toJson, coerceJson, coerceMembers, k1, k4, k10,
      k11, validUTF8_coerce _ h1, validUTF8_coerce _ h2, validUTF8_coerce _ h3]
  | news m =>
    simp only [Message.valid, Bool.and_eq_true] at h
    obtain ⟨h1, h2⟩ := h
    cases ha : m.News.Articles with
    | none =>
      simp [Message.toJson, Message.generic, news.toJson, articlesToJson, articlesGeneric, ha,
        coerceJson, coerceMembers, k1, k5, k12, validUTF8_coerce _ h1]
    | some as =>
      rw [ha] at h2
      simp only [validArticles] at h2
      simp [Message.toJson, Message.generic, news.toJson, articlesToJson, articlesGeneric, ha,
        coerceJson, coerceMembers, k1, k5, k12, validUTF8_coerce _ h1,
        coerceElems_articles_valid as h2, coerceElems_articlesGeneric_valid as h2]
  | file m =>
    simp only [Message.valid, Bool.and_eq_true] at h
    obtain ⟨h1, h2⟩ := h
    simp [Message.toJson, Message.generic, file.toJson, coerceJson, coerceMembers, k1, k6, k17,
      validUTF8_coerce _ h1, validUTF8_coerce _ h2]

theorem toGo_toJson (msg : Message) :
    toGo msg.toJson = msg.generic ∧ toGo msg.generic = msg.generic := by
  cases msg with
  | text m =>
    simp [Message.toJson, Message.generic, text.toJson, toGo, toGoMembers_msgtype_text,
      toGoMembers_text, toGo_stringsToJson]
  | markdown m =>
    simp [Message.toJson, Message.generic, markdown.toJson, toGo, toGoMembers_msgtype_markdown,
      toGoMembers_markdown_sorted, toGoMembers_one]
  | image m =>
    simp [Message.toJson, Message.generic, image.toJson, toGo, toGoMembers_msgtype_image,
      toGoMembers_image_sorted, toGoMembers_image]
  | news m =>
    cases ha : m.News.Articles <;>
      simp [Message.toJson, Message.generic, news.toJson, articlesToJson, articlesGeneric, ha,
        toGo, toGoMembers_msgtype_news, toGoMembers_one, toGoElems_articles,
        toGoElems_articlesGeneric]
  | file m =>
    simp [Message.toJson, Message.generic, file.toJson, toGo, toGoMembers_msgtype_file,
      toGoMembers_file_sorted, toGoMembers_one]

theorem hasRangeError_toJson (msg : Message) :
    hasRangeError msg.toJson = false ∧ hasRangeError msg.generic = false := by
  cases msg with
  | news m =>
    cases ha : m.News.Articles <;>
      simp [Message.toJson, Message.generic, news.toJson, articlesToJson, articlesGeneric, ha,
        hasRangeError, hasRangeErrorMembers, hasRangeErrorElems_articles]
  | _ =>
    simp [Message.toJson, Message.generic, text.toJson, markdown.toJson, image.toJson,
      file.toJson, hasRangeError, hasRangeErrorMembers, hasRangeError_stringsToJson]

theorem jsonUnmarshalAny_render (fmt : Bool → Nat → Int → GoString) (t : Json)
    (hf : numFree t = true) (hh : height t ≤ maxNestingDepth) (hc : coerceJson t = t)
    (hr : hasRangeError t = false) :
    jsonUnmarshalAny (render fmt t) = (none, toGo t) := by
  simp [jsonUnmarshalAny, parseJson_render fmt t hf hh, hc, hr]


/-! ## C1: the shape of the serialized envelope -/

theorem parseJson_marshal (msg : Message) :
    ∃ text, jsonMarshal msg = .ok text ∧ parseJson text = some (coerceJson msg.toJson) :=
  ⟨render noFloat msg.toJson, rfl,
    parseJson_render noFloat msg.toJson (numFree_toJson msg).1 (height_toJson msg).1⟩

/-- C1. Each builder hands `send` its envelope, and the JSON text
`json.Marshal` writes for that envelope parses to an object with exactly two
members, `msgtype` and the kind name, `msgtype` being the string `text`,
`markdown`, `image`, `news` or `file` of the builder called. The member under
the kind name is an object with exactly the members `content`,
`mentioned_list`, `mentioned_mobile_list` (text); `content` (markdown);
`base64`, `md5` (image); `articles` (news); `media_id` (file). The value of
`articles` is `null` for a nil slice and otherwise an array with one object
per article, each with exactly the members `title`, `description`, `url`,
`picurl`. -/
theorem envelope_json_shape (w : World) (r : Robot) :
    (∀ content mentionedList mentionedMobileList,
      SendText w r content mentionedList mentionedMobileList
        = send w r (textEnvelope content mentionedList mentionedMobileList) ∧
      ∃ text v1 v2 v3,
        jsonMarshal (textEnvelope content mentionedList mentionedMobileList) = .ok text ∧
        parseJson text = some (.obj [(ascii "msgtype", .str (ascii "text")),
          (ascii "text", .obj [(ascii "content", v1), (ascii "mentioned_list", v2),
            (ascii "mentioned_mobile_list", v3)])])) ∧
    (∀ content,
      SendMarkdown w r content = send w r (markdownEnvelope content) ∧
      ∃ text v1,
        jsonMarshal (markdownEnvelope content) = .ok text ∧
        parseJson text = some (.obj [(ascii "msgtype", .str (ascii "markdown")),
          (ascii "markdown", .obj [(ascii "content", v1)])])) ∧
    (∀ base64 md5,
      SendImage w r base64 md5 = send w r (imageEnvelope base64 md5) ∧
      ∃ text v1 v2,
        jsonMarshal (imageEnvelope base64 md5) = .ok text ∧
        parseJson text = some (.obj [(ascii "msgtype", .str (ascii "image")),
          (ascii "image", .obj [(ascii "base64", v1), (ascii "md5", v2)])])) ∧
    (∀ articles,
      SendNews w r articles = send w r (newsEnvelope articles) ∧
      ∃ text v1,
        jsonMarshal (newsEnvelope articles) = .ok text ∧
        parseJson text = some (.obj [(ascii "msgtype", .str (ascii "news")),
          (ascii "news", .obj [(ascii "articles", v1)])]) ∧
        (articles = none → v1 = .null) ∧
        (∀ as, articles = some as →
          ∃ items, v1 = .arr items ∧ items.length = as.length ∧
            ∀ item ∈ items, ∃ t d u p,
              item = .obj [(ascii "title", t), (ascii "description", d), (ascii "url", u),
                (ascii "picurl", p)])) ∧
    (∀ mediaId,
      SendFile w r mediaId = send w r (fileEnvelope mediaId) ∧
      ∃ text v1,
        jsonMarshal (fileEnvelope mediaId) = .ok text ∧
        parseJson text = some (.obj [(ascii "msgtype", .str (ascii "file")),
          (ascii "file", .obj [(ascii "media_id", v1)])])) := by
  obtain ⟨k1, k2, k3, k4, k5, k6, k7, k8, k9, k10, k11, k12, _, _, _, _, k17⟩ := coerceUTF8_keys
  have cText : coerceUTF8 msgTypeText = ascii "text" := k2
  have cMarkdown : coerceUTF8 msgTypeMarkdown = ascii "markdown" := k3
  have cImage : coerceUTF8 msgTypeImage = ascii "image" := k4
  have cNews : coerceUTF8 msgTypeNews = ascii "news" := k5
  have cFile : coerceUTF8 msgTypeFile = ascii "file" := k6
  refine ⟨?_, ?_, ?_, ?_, ?_⟩
  · intro content ml mml
    refine ⟨rfl, ?_⟩
    obtain ⟨txt, h1, h2⟩ := parseJson_marshal (textEnvelope content ml mml)
    refine ⟨txt, .str (coerceUTF8 content), coerceJson (stringsToJson ml),
      coerceJson (stringsToJson mml), h1, ?_⟩
    rw [h2]
    simp only [textEnvelope, Message.toJson, WechatTalk.text.toJson]
    simp only [coerceJson, coerceMembers, k1, k2, k7, k8,
      k9, cText]
  · intro content
    refine ⟨rfl, ?_⟩
    obtain ⟨txt, h1, h2⟩ := parseJson_marshal (markdownEnvelope content)
    refine ⟨txt, .str (coerceUTF8 content), h1, ?_⟩
    rw [h2]
    simp only [markdownEnvelope, Message.toJson, markdown.toJson]
    simp only [coerceJson, coerceMembers, k1, k3,
      k7, cMarkdown]
  · intro base64 md5
    refine ⟨rfl, ?_⟩
    obtain ⟨txt, h1, h2⟩ := parseJson_marshal (imageEnvelope base64 md5)
    refine ⟨txt, .str (coerceUTF8 base64), .str (coerceUTF8 md5), h1, ?_⟩
    rw [h2]
    simp only [imageEnvelope, Message.toJson, image.toJson]
    simp only [coerceJson, coerceMembers, k1, k4, k10,
      k11, cImage]
  · intro articles
    refine ⟨rfl, ?_⟩
    obtain ⟨txt, h1, h2⟩ := parseJson_marshal (newsEnvelope articles)
    refine ⟨txt, coerceJson (articlesToJson articles), h1, ?_, ?_, ?_⟩
    · rw [h2]
      simp only [newsEnvelope, Message.toJson, news.toJson]
      simp only [coerceJson, coerceMembers, k1, k5, k12,
        cNews]
    · intro ha
      subst ha
      simp [articlesToJson, coerceJson]
    · intro as ha
      subst ha
      refine ⟨as.map (fun a => coerceJson a.toJson), ?_, by simp, ?_⟩
      · simp [articlesToJson, coerceJson, coerceElems_articles]
      · intro item hitem
        obtain ⟨a, _, rfl⟩ := List.mem_map.1 hitem
        exact ⟨_, _, _, _, coerceJson_article a⟩
  · intro mediaId
    refine ⟨rfl, ?_⟩
    obtain ⟨txt, h1, h2⟩ := parseJson_marshal (fileEnvelope mediaId)
    refine ⟨txt, .str (coerceUTF8 mediaId), h1, ?_⟩
    rw [h2]
    simp only [fileEnvelope, Message.toJson, file.toJson]
    simp only [coerceJson, coerceMembers, k1, k6, k17,
      cFile]

/-! ## C9: encoding, decoding and encoding again -/

theorem builder_envelopes_valid :
    (∀ content ml mml, (textEnvelope content ml mml).valid
      = (validUTF8 content && validStrings ml && validStrings mml)) ∧
    (∀ content, (markdownEnvelope content).valid = validUTF8 content) ∧
    (∀ base64 md5, (imageEnvelope base64 md5).valid = (validUTF8 base64 && validUTF8 md5)) ∧
    (∀ articles, (newsEnvelope articles).valid = validArticles articles) ∧
    (∀ mediaId, (fileEnvelope mediaId).valid = validUTF8 mediaId) := by
  have h1 : validUTF8 msgTypeText = true := by decide
  have h2 : validUTF8 msgTypeMarkdown = true := by decide
  have h3 : validUTF8 msgTypeImage = true := by decide
  have h4 : validUTF8 msgTypeNews = true := by decide
  have h5 : validUTF8 msgTypeFile = true := by decide
  refine ⟨?_, ?_, ?_, ?_, ?_⟩
  · intro content ml mml
    simp [Message.valid, textEnvelope, h1]
  · intro content
    simp [Message.valid, markdownEnvelope, h2]
  · intro base64 md5
    simp [Message.valid, imageEnvelope, h3]
  · intro articles
    simp [Message.valid, newsEnvelope, h4]
  · intro mediaId
    simp [Message.valid, fileEnvelope, h5]

/-- C9 (amended). For every message whose strings are all valid UTF-8, and so
for every envelope a builder makes from valid UTF-8 arguments:
`json.Marshal` succeeds; decoding its text into `interface{}` succeeds and
gives the map with the key set and the values of the envelope at every level
(`Message.generic`: strings equal, lists equal in order, a nil slice as nil);
and encoding that map again and decoding the new text gives the same map. A
builder envelope is valid exactly when the arguments are
(`builder_envelopes_valid`). -/
theorem marshal_roundtrip_valid_utf8 (msg : Message) (fmt : Bool → Nat → Int → GoString)
    (h : msg.valid = true) :
    ∃ text, jsonMarshal msg = .ok text ∧
      jsonUnmarshalAny text = (none, msg.generic) ∧
      jsonUnmarshalAny (render fmt msg.generic) = (none, msg.generic) := by
  refine ⟨render noFloat msg.toJson, rfl, ?_, ?_⟩
  · rw [jsonUnmarshalAny_render noFloat msg.toJson (numFree_toJson msg).1 (height_toJson msg).1
      (coerceJson_toJson_valid msg h).1 (hasRangeError_toJson msg).1, (toGo_toJson msg).1]
  · rw [jsonUnmarshalAny_render fmt msg.generic (numFree_toJson msg).2 (height_toJson msg).2
      (coerceJson_toJson_valid msg h).2 (hasRangeError_toJson msg).2, (toGo_toJson msg).2]

/-- C9, at the text of the test file, `广州今日天气：29度，大部分多云，降雨概率：60%`. -/
theorem marshal_roundtrip_valid_utf8_witness :
    ∃ text,
      jsonMarshal (textEnvelope (utf8 "广州今日天气：29度，大部分多云，降雨概率：60%") (some []) (some []))
        = .ok text ∧
      jsonUnmarshalAny text
        = (none, (textEnvelope (utf8 "广州今日天气：29度，大部分多云，降雨概率：60%") (some [])
            (some [])).generic) ∧
      jsonUnmarshalAny (render noFloat
          (textEnvelope (utf8 "广州今日天气：29度，大部分多云，降雨概率：60%") (some []) (some [])).generic)
        = (none, (textEnvelope (utf8 "广州今日天气：29度，大部分多云，降雨概率：60%") (some [])
            (some [])).generic) :=
  marshal_roundtrip_valid_utf8
    (textEnvelope (utf8 "广州今日天气：29度，大部分多云，降雨概率：60%") (some []) (some [])) noFloat
    (by decide!)

/-- C9 as stated fails: `SendText` with the one-byte content `0xFF`, which is
not valid UTF-8. `json.Marshal` writes the content as `\ufffd`; the decoded
map holds the three bytes `EF BF BD` of U+FFFD under `content`, not the byte
that was given, so its values are not those of the envelope. -/
theorem marshal_roundtrip_fails_invalid_utf8 :
    jsonMarshal (textEnvelope [0xFF] (some []) (some []))
      = .ok (ascii
          "\x7b\"msgtype\":\"text\",\"text\":\x7b\"content\":\"\\ufffd\",\"mentioned_list\":[],\"mentioned_mobile_list\":[]\x7d\x7d") ∧
    jsonUnmarshalAny (ascii
          "\x7b\"msgtype\":\"text\",\"text\":\x7b\"content\":\"\\ufffd\",\"mentioned_list\":[],\"mentioned_mobile_list\":[]\x7d\x7d")
      = (none, (textEnvelope [0xEF, 0xBF, 0xBD] (some []) (some [])).generic) ∧
    ¬ ∃ text, jsonMarshal (textEnvelope [0xFF] (some []) (some [])) = .ok text ∧
        jsonUnmarshalAny text = (none, (textEnvelope [0xFF] (some []) (some [])).generic) := by
  have h1 : jsonMarshal (textEnvelope [0xFF] (some []) (some []))
      = .ok (ascii
          "\x7b\"msgtype\":\"text\",\"text\":\x7b\"content\":\"\\ufffd\",\"mentioned_list\":[],\"mentioned_mobile_list\":[]\x7d\x7d") := rfl
  have h2 : jsonUnmarshalAny (ascii
          "\x7b\"msgtype\":\"text\",\"text\":\x7b\"content\":\"\\ufffd\",\"mentioned_list\":[],\"mentioned_mobile_list\":[]\x7d\x7d")
      = (none, (textEnvelope [0xEF, 0xBF, 0xBD] (some []) (some [])).generic) := rfl
  refine ⟨h1, h2, ?_⟩
  rintro ⟨text, ht, hd⟩
  rw [h1] at ht
  cases ht
  rw [h2] at hd
  simp [Message.generic, textEnvelope] at hd

end WechatTalk
